import Mathlib

/-! # kgent: conversation store, response parser, tool dispatcher and agent loop

A shallow embedding of the Go sources `cmd/ai/message.go`, `cmd/prompt/template.go`,
`cmd/chat.go`, `cmd/check.go`, `cmd/tools/create.go`, `cmd/tools/human.go`,
`cmd/tools/kubetool.go` and `cmd/utils/colorPrint.go`.

Modelling conventions.

* A Go string is modelled as the list of its runes (`GoString`).  Model replies and
  action inputs come out of a JSON decoder, so they are valid UTF-8.
* The language model, `json.Unmarshal` and the tool back ends are external; they are
  parameters of the embedding (a sequence of replies, an environment of functions).
* `loopCount` is a Go `int` that starts at 1 and grows by one per model call; it is
  modelled as an unbounded integer.
* Only the calls of `utils.PrintCyan` and `utils.PrintYellow` made by the loop are
  recorded as output; the `fmt.Print*` diagnostics of debug mode are not.
* `fmt.Sprintf` is modelled for the verbs `%s` and `%%` on strings and slices of
  strings, which is all the prompt builder and the colour printers need.
-/

/-- A Go string, as the sequence of its runes. -/
abbrev GoString := List Char

/-! ## Standard library functions used by the sources -/

/-- The regexp class `\s` of Go (RE2 syntax): tab, line feed, form feed, carriage return, space. -/
def isRegexSpace (c : Char) : Bool :=
  c == '\t' || c == '\n' || c == '\x0c' || c == '\r' || c == ' '

/-- The regexp atom `.` of Go without the `s` flag: every rune except line feed. -/
def isRegexDot (c : Char) : Bool :=
  c != '\n'

/-- Go `unicode.IsSpace`: the runes with the Unicode White_Space property. -/
def unicodeIsSpace (c : Char) : Bool :=
  (0x09 ≤ c.toNat && c.toNat ≤ 0x0d) || c.toNat == 0x20 || c.toNat == 0x85 || c.toNat == 0xa0
    || c.toNat == 0x1680 || (0x2000 ≤ c.toNat && c.toNat ≤ 0x200a) || c.toNat == 0x2028
    || c.toNat == 0x2029 || c.toNat == 0x202f || c.toNat == 0x205f || c.toNat == 0x3000

/-- Go `strings.TrimSpace`: drops leading and trailing white space. -/
def TrimSpace (s : GoString) : GoString :=
  ((s.dropWhile unicodeIsSpace).reverse.dropWhile unicodeIsSpace).reverse

/-- Go `strings.Contains`. -/
def Contains (s substr : GoString) : Bool :=
  decide (substr <:+: s)

/-- The text that follows the leftmost occurrence of `m` in the text, when there is one. -/
def afterFirst (m : GoString) : GoString → Option GoString
  | [] => if m = [] then some [] else none
  | c :: cs => if m <+: c :: cs then some ((c :: cs).drop m.length) else afterFirst m cs

/-! ## `cmd/prompt/template.go` -/

/-- The constant `promptTpl.SystemPrompt`. -/
def SystemPrompt : GoString :=
  "\nYou are a Kubernetes expert. A user will ask you questions about Kubernetes. Please identify the problem and provide a solution. You should always use the available tools to gather accurate data before answering.\n".toList

/-! ## `cmd/ai/message.go` -/

/-- The type `openai.FunctionCall` of the go-openai library (opaque to the repository). -/
structure FunctionCall where
  Name : GoString
  Arguments : GoString
  deriving DecidableEq

/-- The type `openai.ToolCall` of the go-openai library (opaque to the repository). -/
structure ToolCall where
  ID : GoString
  Type_ : GoString
  Function : FunctionCall
  deriving DecidableEq

/-- The type `openai.ChatCompletionMessage` of the go-openai library: the fields the
repository reads or writes (`Role`, `Content`, `FunctionCall`, `ToolCalls`) and two of
the fields it never sets (`Name`, `ToolCallID`). -/
structure ChatCompletionMessage where
  Role : GoString
  Content : GoString
  Name : GoString := []
  FunctionCall : Option FunctionCall := none
  ToolCalls : List ToolCall := []
  ToolCallID : GoString := []
  deriving DecidableEq

def RoleUser : GoString := "user".toList

def RoleAssistant : GoString := "assistant".toList

def RoleSystem : GoString := "system".toList

def RoleTool : GoString := "tool".toList

/-- The struct `ChatMessage`. -/
structure ChatMessage where
  Msg : ChatCompletionMessage
  deriving DecidableEq

/-- The type `ChatMessages`, a slice of messages. -/
abbrev ChatMessages := List ChatMessage

/-- `(*ChatMessages).AppendMessage`. -/
def ChatMessages.AppendMessage (cm : ChatMessages) (msg : GoString) (role : GoString) :
    ChatMessages :=
  cm ++ [{ Msg := { Role := role, Content := msg } }]

/-- `(*ChatMessages).GetMessage`. -/
def ChatMessages.GetMessage (cm : ChatMessages) : List ChatCompletionMessage :=
  cm.map fun msg => msg.Msg

/-- `(*ChatMessages).AddToolCall`. -/
def ChatMessages.AddToolCall (cm : ChatMessages) (rsp : ChatCompletionMessage)
    (role : GoString) : ChatMessages :=
  cm ++ [{ Msg := { Role := role, Content := rsp.Content, FunctionCall := rsp.FunctionCall,
                    ToolCalls := rsp.ToolCalls } }]

/-- `(*ChatMessages).AddSystem`. -/
def ChatMessages.AddSystem (cm : ChatMessages) (msg : GoString) : ChatMessages :=
  cm.AppendMessage msg RoleSystem

/-- `(*ChatMessages).AddAssistant`. -/
def ChatMessages.AddAssistant (cm : ChatMessages) (rsp : ChatCompletionMessage) :
    ChatMessages :=
  cm.AddToolCall rsp RoleAssistant

/-- `(*ChatMessages).AddUser`. -/
def ChatMessages.AddUser (cm : ChatMessages) (msg : GoString) : ChatMessages :=
  cm.AppendMessage msg RoleUser

/-- `(*ChatMessages).Clear`: the receiver is replaced by a fresh empty slice, then the
system prompt is added. -/
def ChatMessages.Clear (_cm : ChatMessages) : ChatMessages :=
  ChatMessages.AddSystem [] SystemPrompt

/-- `(*ChatMessages).GetLast`. -/
def ChatMessages.GetLast (cm : ChatMessages) : GoString :=
  match cm.getLast? with
  | none => "No messages in the chat history".toList
  | some m => m.Msg.Content

/-! ## Tool descriptors (`cmd/tools`) -/

/-- The struct `tools.CreateTool` (`cmd/tools/create.go`). -/
structure CreateTool where
  Name : GoString
  Description : GoString
  ArgsSchema : GoString
  deriving DecidableEq

/-- `tools.NewCreateTool`. -/
def NewCreateTool : CreateTool :=
  { Name := "CreateTool".toList
    Description := "Used to create a specified Kubernetes resource in a specified namespace, such as creating a pod etc.".toList
    ArgsSchema := "\x7b\"type\":\"object\",\"properties\":\x7b\"prompt\":\x7b\"type\":\"string\", \"description\": \"Put the user\x27s prompt for creating a resource exactly here, without any changes\"\x7d,\"resource\":\x7b\"type\":\"string\", \"description\": \"The specified Kubernetes resource type, such as pod, service etc.\"\x7d\x7d\x7d".toList }

/-- The struct `tools.ListTool` (`cmd/tools/list.go`). -/
structure ListTool where
  Name : GoString
  Description : GoString
  ArgsSchema : GoString
  deriving DecidableEq

/-- `tools.NewListTool`. -/
def NewListTool : ListTool :=
  { Name := "ListTool".toList
    Description := "Used to list the specified Kubernetes resources in a specified namespace, such as pod list etc.".toList
    ArgsSchema := "\x7b\"type\":\"object\",\"properties\":\x7b\"resource\":\x7b\"type\":\"string\", \"description\": \"The specified Kubernetes resource type, such as pod, service etc.\"\x7d, \"namespace\":\x7b\"type\":\"string\", \"description\": \"The specified Kubernetes namespace\"\x7d\x7d".toList }

/-- The struct `tools.DeleteTool` (`cmd/tools/delete.go`). -/
structure DeleteTool where
  Name : GoString
  Description : GoString
  ArgsSchema : GoString
  deriving DecidableEq

/-- `tools.NewDeleteTool`. -/
def NewDeleteTool : DeleteTool :=
  { Name := "DeleteTool".toList
    Description := "Used to delete a specified Kubernetes resource in a specified namespace, such as deleting a pod etc.".toList
    ArgsSchema := "\x7b\"type\":\"object\",\"properties\":\x7b\"resource\":\x7b\"type\":\"string\", \"description\": \"The specified Kubernetes resource type, such as pod, service etc.\"\x7d, \"name\":\x7b\"type\":\"string\", \"description\": \"The name of the specified Kubernetes resource instance\"\x7d, \"namespace\":\x7b\"type\":\"string\", \"description\": \"The namespace of the specified Kubernetes resource\"\x7d\x7d".toList }

/-- The struct `tools.HumanTool` (`cmd/tools/human.go`). -/
structure HumanTool where
  Name : GoString
  Description : GoString
  ArgsSchema : GoString
  deriving DecidableEq

/-- `tools.NewHumanTool`. -/
def NewHumanTool : HumanTool :=
  { Name := "HumanTool".toList
    Description := "When you determine that you need to perform dangerous operations, such as deletion, you need to use this tool to initiate a confirmation request to humans first.".toList
    ArgsSchema := "\x7b\"type\":\"object\",\"properties\":\x7b\"prompt\":\x7b\"type\":\"string\", \"description\": \"The action you want to perform, such as deleting a pod\", \"example\": \"Please confirm whether to delete the foo-app pod in the default namespace\"\x7d\x7d\x7d".toList }

/-- The struct `tools.KubeTool` (`cmd/tools/kubetool.go`). -/
structure KubeTool where
  Name : GoString
  Description : GoString
  ArgsSchema : GoString
  deriving DecidableEq

/-- `tools.NewKubeTool`. -/
def NewKubeTool : KubeTool :=
  { Name := "KubeTool".toList
    Description := "A tool for running Kubernetes commands (kubectl, helm) on a Kubernetes cluster.".toList
    ArgsSchema := "\x7b\"type\":\"object\",\"properties\":\x7b\"commands\":\x7b\"type\":\"string\", \"description\": \"The kubectl/helm related command to run. e.g. kubectl get pods\"\x7d\x7d\x7d".toList }

/-- The struct `tools.SerpApiTool` (`cmd/tools/serpapi.go`). -/
structure SerpApiTool where
  Name : GoString
  Description : GoString
  ArgsSchema : GoString
  deriving DecidableEq

/-- `tools.NewSerpApiTool`. -/
def NewSerpApiTool : SerpApiTool :=
  { Name := "serpapi_search".toList
    Description := "Search the web for information using DuckDuckGo search engine via SerpAPI".toList
    ArgsSchema := "\x7b\"type\":\"object\",\"properties\":\x7b\"query\":\x7b\"type\":\"string\", \"description\": \"the search query to be used\"\x7d\x7d\x7d".toList }

/-- The struct `tools.RequestsTool` (`cmd/tools/httpRequest.go`), without its HTTP client. -/
structure RequestsTool where
  Name : GoString
  Description : GoString
  ArgsSchema : GoString
  deriving DecidableEq

/-- `tools.NewRequestsTool`. -/
def NewRequestsTool : RequestsTool :=
  { Name := "RequestsTool".toList
    Description := "A portal to the internet. Use this when you need to get specific content from a website. Input should be a url (i.e. https://www.kubernetes.io/releases). The output will be the text response of the GET request.".toList
    ArgsSchema := "\x7b\"type\":\"object\",\"properties\":\x7b\"url\":\x7b\"type\":\"string\", \"description\": \"the url to be accessed, e.g. https://www.kubernetes.io/releases\"\x7d\x7d\x7d".toList }

/-- The struct `tools.CreateToolParam`. -/
structure CreateToolParam where
  Prompt : GoString
  Resource : GoString
  deriving DecidableEq

/-- The struct `tools.ListToolParam`. -/
structure ListToolParam where
  Resource : GoString
  Namespace : GoString
  deriving DecidableEq

/-- The struct `tools.DeleteToolParam`. -/
structure DeleteToolParam where
  Resource : GoString
  Name : GoString
  Namespace : GoString
  deriving DecidableEq

/-- The struct `tools.HumanToolParam`. -/
structure HumanToolParam where
  Prompt : GoString
  deriving DecidableEq

/-- The struct `tools.KubeInput`. -/
structure KubeInput where
  Commands : GoString
  deriving DecidableEq

/-- The struct `tools.SerpApiToolParam`. -/
structure SerpApiToolParam where
  Query : GoString
  deriving DecidableEq

/-- The struct `tools.RequestsToolParam`. -/
structure RequestsToolParam where
  Url : GoString
  deriving DecidableEq

/-- The struct `tools.FinalResult`. -/
structure FinalResult where
  Title : GoString
  Link : GoString
  deriving DecidableEq

/-- One execution of a tool back end, with the arguments it was given. -/
inductive ToolRun where
  | create (prompt resource : GoString) (debugMode : Bool)
  | list (resource ns : GoString)
  | delete (resource name ns : GoString)
  | human (prompt : GoString)
  | kube (commands : GoString)
  | search (query : GoString)
  | request (url : GoString)
  deriving DecidableEq

/-- The external calls made by `handleAction`.  `unmarshal*` is `json.Unmarshal` into the
parameter struct of one tool: the error text on failure, the filled struct on success.
`*Run` is the `Run` method of one tool, assumed to return; its first argument is the
number of model calls made so far in the turn, so that a back end may answer the same
arguments differently at different times.  A Go `error` is modelled by its text, `nil`
by `none`. -/
structure ChatEnv where
  unmarshalCreate : GoString → Except GoString CreateToolParam
  unmarshalList : GoString → Except GoString ListToolParam
  unmarshalDelete : GoString → Except GoString DeleteToolParam
  unmarshalHuman : GoString → Except GoString HumanToolParam
  createRun : Nat → GoString → GoString → Bool → GoString
  listRun : Nat → GoString → GoString → GoString × Option GoString
  deleteRun : Nat → GoString → GoString → GoString → Option GoString
  humanRun : Nat → GoString → GoString

/-- The external calls made by `handleCheckAction`, as in `ChatEnv`. -/
structure CheckEnv where
  unmarshalKube : GoString → Except GoString KubeInput
  unmarshalSearch : GoString → Except GoString SerpApiToolParam
  unmarshalRequest : GoString → Except GoString RequestsToolParam
  kubeRun : Nat → GoString → GoString × Option GoString
  searchRun : Nat → GoString → List FinalResult × Option GoString
  requestRun : Nat → GoString → GoString × Option GoString

/-- The verb `%v` of `fmt` applied to a value of type `[]FinalResult`. -/
def formatFinalResults (output : List FinalResult) : GoString :=
  "[".toList ++ (" ".toList).intercalate
    (output.map fun r => "\x7b".toList ++ r.Title ++ " ".toList ++ r.Link ++ "\x7d".toList)
    ++ "]".toList

/-- `handleAction` of `cmd/chat.go`: the text handed back to the loop, and the tool run
made on the way, if any. -/
def handleAction (env : ChatEnv) (t : Nat) (createTool : CreateTool) (listTool : ListTool)
    (deleteTool : DeleteTool) (humanTool : HumanTool) (action : GoString)
    (actionInput : GoString) (debugMode : Bool) : GoString × Option ToolRun :=
  if action = createTool.Name then
    match env.unmarshalCreate actionInput with
    | .error err => ("Error: Failed to parse action input: ".toList ++ err, none)
    | .ok param =>
      (env.createRun t param.Prompt param.Resource debugMode,
        some (.create param.Prompt param.Resource debugMode))
  else if action = listTool.Name then
    match env.unmarshalList actionInput with
    | .error err => ("Error: Failed to parse action input: ".toList ++ err, none)
    | .ok param =>
      match env.listRun t param.Resource param.Namespace with
      | (_, some err) =>
        ("Error listing resources: ".toList ++ err, some (.list param.Resource param.Namespace))
      | (result, none) => (result, some (.list param.Resource param.Namespace))
  else if action = deleteTool.Name then
    match env.unmarshalDelete actionInput with
    | .error err => ("Error: Failed to parse action input: ".toList ++ err, none)
    | .ok param =>
      match env.deleteRun t param.Resource param.Name param.Namespace with
      | some err =>
        ("Delete failed: ".toList ++ err,
          some (.delete param.Resource param.Name param.Namespace))
      | none =>
        ("Resource deleted successfully".toList,
          some (.delete param.Resource param.Name param.Namespace))
  else if action = humanTool.Name then
    match env.unmarshalHuman actionInput with
    | .error err => ("Error: Failed to parse action input: ".toList ++ err, none)
    | .ok param => (env.humanRun t param.Prompt, some (.human param.Prompt))
  else
    ("Unknown tool: ".toList ++ action, none)

/-- `handleCheckAction` of `cmd/check.go`. -/
def handleCheckAction (env : CheckEnv) (t : Nat) (kubeTool : KubeTool)
    (searchTool : SerpApiTool) (requestTool : RequestsTool) (action : GoString)
    (actionInput : GoString) (_debugMode : Bool) : GoString × Option ToolRun :=
  if action = kubeTool.Name then
    match env.unmarshalKube actionInput with
    | .error err => ("Error: Failed to parse action input: ".toList ++ err, none)
    | .ok param =>
      match env.kubeRun t param.Commands with
      | (_, some err) =>
        ("Error: Failed to run kubeTool: ".toList ++ err, some (.kube param.Commands))
      | (result, none) => (result, some (.kube param.Commands))
  else if action = searchTool.Name then
    match env.unmarshalSearch actionInput with
    | .error err => ("Error: Failed to parse action input: ".toList ++ err, none)
    | .ok param =>
      match env.searchRun t param.Query with
      | (_, some err) =>
        ("Error: Failed to run searchTool: ".toList ++ err, some (.search param.Query))
      | (output, none) =>
        ("Search results: ".toList ++ formatFinalResults output ++
          ", I need to use the tool httpRequest to get the content of the search results".toList,
          some (.search param.Query))
  else if action = requestTool.Name then
    match env.unmarshalRequest actionInput with
    | .error err => ("Error: Failed to parse action input: ".toList ++ err, none)
    | .ok param =>
      match env.requestRun t param.Url with
      | (_, some err) =>
        ("Error: Failed to run requestTool: ".toList ++ err, some (.request param.Url))
      | (output, none) => ("Request results: ".toList ++ output, some (.request param.Url))
  else
    ("Unknown tool: ".toList ++ action, none)

/-! ## The response parser and the agent loop (`cmd/chat.go`, `cmd/check.go`) -/

/-- The marker of the final answer. -/
def finalAnswerMarker : GoString := "Final Answer:".toList

/-- The marker of the action line. -/
def actionMarker : GoString := "Action:".toList

/-- The marker of the action input line. -/
def actionInputMarker : GoString := "Action Input:".toList

/-- The call `regexPattern.FindStringSubmatch(content)` for the pattern
`Final Answer:\s*(.*)`: the empty slice when the pattern does not match, otherwise the
whole match and the text of group 1.  The leftmost occurrence of the marker starts the
match; `\s*` then takes every rune of class `\s` that follows (line breaks too) and the
greedy `(.*)` takes every rune up to the next line feed. -/
def regexPattern_FindStringSubmatch (content : GoString) : List GoString :=
  match afterFirst finalAnswerMarker content with
  | none => []
  | some rest =>
    let ws := rest.takeWhile isRegexSpace
    let group := (rest.dropWhile isRegexSpace).takeWhile isRegexDot
    [finalAnswerMarker ++ ws ++ group, group]

/-- The rune class `[\n\r]`. -/
def isLineBreak (c : Char) : Bool :=
  c == '\n' || c == '\r'

/-- The call `FindStringSubmatch(content)` for a pattern `<marker>\s*(.*?)(?:$|[\n\r])`
(`regexAction` and `regexActionInput`): the leftmost occurrence of the marker starts the
match, `\s*` takes every rune of class `\s` that follows, and the lazy group stops at the
first line feed or carriage return, or at the end of the text. -/
def regexLine_FindStringSubmatch (marker content : GoString) : List GoString :=
  match afterFirst marker content with
  | none => []
  | some rest =>
    let ws := rest.takeWhile isRegexSpace
    let tail := rest.dropWhile isRegexSpace
    let group := tail.takeWhile fun c => !isLineBreak c
    let stop := (tail.dropWhile fun c => !isLineBreak c).take 1
    [marker ++ ws ++ group ++ stop, group]

/-- The call `regexAction.FindStringSubmatch(content)`. -/
def regexAction_FindStringSubmatch (content : GoString) : List GoString :=
  regexLine_FindStringSubmatch actionMarker content

/-- The call `regexActionInput.FindStringSubmatch(content)`. -/
def regexActionInput_FindStringSubmatch (content : GoString) : List GoString :=
  regexLine_FindStringSubmatch actionInputMarker content

/-- One call of `utils.PrintCyan` or `utils.PrintYellow`, with its format argument (the
loop never passes further arguments). -/
inductive Printed where
  | cyan (format : GoString)
  | yellow (format : GoString)
  deriving DecidableEq

/-- The message printed when the loop count reaches the ceiling. -/
def exhaustedMessage : GoString :=
  "Exceeded maximum number of reasoning loops. Stopping execution.".toList

/-- The state of one user turn: the global `ai.MessageStore`, the local `loopCount`, and
a record of what the turn has done so far: the argument of every `ai.Chat` call, the
colour prints, the `(action, actionInput)` pair of every dispatcher call and the tool
runs made by the dispatcher. -/
structure TurnState where
  store : ChatMessages
  loopCount : Int
  modelCalls : List (List ChatCompletionMessage)
  printed : List Printed
  dispatched : List (GoString × GoString)
  toolRuns : List ToolRun
  deriving DecidableEq

/-- The dispatcher seen from the loop: `handleAction` or `handleCheckAction` with its
tools fixed. -/
abbrev Handler := Nat → GoString → GoString → Bool → GoString × Option ToolRun

/-- The body of the `for` loop of `processConversation` and `processCheckLoop` (the two
differ only in the dispatcher they call).  `replies k` is the answer of the model to
call number `k` of the turn.  The boolean is true when the body leaves through `break`. -/
def loopBody (handle : Handler) (replies : Nat → ChatCompletionMessage) (debugMode : Bool)
    (s : TurnState) : TurnState × Bool :=
  let response := replies s.modelCalls.length
  let s1 := { s with modelCalls := s.modelCalls ++ [s.store.GetMessage] }
  let s2 :=
    if !debugMode && !Contains response.Content finalAnswerMarker then
      { s1 with printed := s1.printed ++ [.cyan "Thinking...".toList] }
    else s1
  let finalAnswer := regexPattern_FindStringSubmatch response.Content
  if finalAnswer.length > 0 then
    if !debugMode then
      ({ s2 with printed := s2.printed ++ [.cyan (TrimSpace (finalAnswer.getD 1 []))] }, true)
    else
      ({ s2 with printed := s2.printed ++
          [.cyan "# Final Answer from LLM:".toList, .cyan response.Content,
           .cyan "-------------------------------------------------".toList] }, true)
  else
    let s3 := { s2 with store := s2.store.AddAssistant response }
    let action := regexAction_FindStringSubmatch response.Content
    let actionInput := regexActionInput_FindStringSubmatch response.Content
    let s4 :=
      if action.length > 1 && actionInput.length > 1 then
        let r := handle s3.modelCalls.length (action.getD 1 []) (actionInput.getD 1 []) debugMode
        let observation := "Observation: ".toList ++ r.1
        let prompt := response.Content ++ "\n".toList ++ observation
        { s3 with
          store := s3.store.AddUser prompt
          dispatched := s3.dispatched ++ [(action.getD 1 [], actionInput.getD 1 [])]
          toolRuns := s3.toolRuns ++ r.2.toList }
      else s3
    ({ s4 with loopCount := s4.loopCount + 1 }, false)

/-- The `for loopCount <= maxLoops` loop, run for at most `fuel` iterations: the state
in which the loop is left, or `none` when `fuel` iterations were not enough. -/
def loopFrom (handle : Handler) (replies : Nat → ChatCompletionMessage) (maxLoops : Int)
    (debugMode : Bool) : Nat → TurnState → Option TurnState
  | 0, s => if s.loopCount ≤ maxLoops then none else some s
  | fuel + 1, s =>
    if s.loopCount ≤ maxLoops then
      match loopBody handle replies debugMode s with
      | (s', true) => some s'
      | (s', false) => loopFrom handle replies maxLoops debugMode fuel s'
    else some s

/-- The state in which a turn starts: `loopCount := 1`, nothing done yet. -/
def TurnState.start (store : ChatMessages) : TurnState :=
  { store := store, loopCount := 1, modelCalls := [], printed := [], dispatched := [],
    toolRuns := [] }

/-- The common shape of `processConversation` and `processCheckLoop`: the loop, then the
test `loopCount >= maxLoops` that prints the exhaustion message. -/
def agentLoop (handle : Handler) (replies : Nat → ChatCompletionMessage) (maxLoops : Int)
    (debugMode : Bool) (fuel : Nat) (store : ChatMessages) : Option TurnState :=
  match loopFrom handle replies maxLoops debugMode fuel (TurnState.start store) with
  | none => none
  | some s =>
    if s.loopCount ≥ maxLoops then
      some { s with printed := s.printed ++ [.yellow exhaustedMessage] }
    else some s

/-- `processConversation` of `cmd/chat.go`, run on the store `store`. -/
def processConversation (env : ChatEnv) (replies : Nat → ChatCompletionMessage)
    (createTool : CreateTool) (listTool : ListTool) (deleteTool : DeleteTool)
    (humanTool : HumanTool) (maxLoops : Int) (debugMode : Bool) (fuel : Nat)
    (store : ChatMessages) : Option TurnState :=
  agentLoop (fun t action actionInput dbg =>
      handleAction env t createTool listTool deleteTool humanTool action actionInput dbg)
    replies maxLoops debugMode fuel store

/-- `processCheckLoop` of `cmd/check.go`, run on the store `store`. -/
def processCheckLoop (env : CheckEnv) (replies : Nat → ChatCompletionMessage)
    (kubeTool : KubeTool) (searchTool : SerpApiTool) (requestTool : RequestsTool)
    (maxLoops : Int) (debugMode : Bool) (fuel : Nat) (store : ChatMessages) :
    Option TurnState :=
  agentLoop (fun t action actionInput dbg =>
      handleCheckAction env t kubeTool searchTool requestTool action actionInput dbg)
    replies maxLoops debugMode fuel store

/-- A reply whose only set fields are the role `assistant` and the content. -/
def replyOf (content : String) : ChatCompletionMessage :=
  { Role := RoleAssistant, Content := content.toList }

/-- An environment for examples: every input fails to parse with the cause `bad`, and
the back ends answer `ok`. -/
def sampleChatEnv : ChatEnv :=
  { unmarshalCreate := fun _ => .error "bad".toList
    unmarshalList := fun _ => .error "bad".toList
    unmarshalDelete := fun _ => .error "bad".toList
    unmarshalHuman := fun _ => .error "bad".toList
    createRun := fun _ _ _ _ => "ok".toList
    listRun := fun _ _ _ => ("ok".toList, none)
    deleteRun := fun _ _ _ _ => none
    humanRun := fun _ _ => "ok".toList }

/-- An environment for examples, as `sampleChatEnv`. -/
def sampleCheckEnv : CheckEnv :=
  { unmarshalKube := fun _ => .error "bad".toList
    unmarshalSearch := fun _ => .error "bad".toList
    unmarshalRequest := fun _ => .error "bad".toList
    kubeRun := fun _ _ => ("ok".toList, none)
    searchRun := fun _ _ => ([], none)
    requestRun := fun _ _ => ("ok".toList, none) }

/-- A dispatcher for examples: it answers `done` and runs nothing. -/
def sampleHandler : Handler := fun _ _ _ _ => ("done".toList, none)

/-! ## The fragment of `fmt` used by the prompt builder and the colour printers -/

/-- An argument of `fmt.Sprintf`: a string or a slice of strings. -/
inductive FmtArg where
  | str (s : GoString)
  | strs (l : List GoString)
  deriving DecidableEq

/-- The verb `%s` applied to one argument: a string is written as it is, a slice of
strings is written as `[`, its elements separated by one space, `]`. -/
def FmtArg.verbS : FmtArg → GoString
  | .str s => s
  | .strs l => "[".toList ++ (" ".toList).intercalate l ++ "]".toList

/-- Go `fmt.Sprintf` for formats whose only verbs are `%s` and `%%`, with arguments that
are strings or slices of strings.  A `%s` without an argument is written `%!s(MISSING)`.
The result is `none` outside this fragment (another verb, a `%` that ends the format,
arguments left over). -/
def Sprintf : GoString → List FmtArg → Option GoString
  | [], [] => some []
  | [], _ :: _ => none
  | c :: tl, args =>
    if c = '%' then
      match tl, args with
      | [], _ => none
      | d :: rest, [] =>
        if d = 's' then (Sprintf rest []).map fun r => "%!s(MISSING)".toList ++ r
        else if d = '%' then (Sprintf rest []).map fun r => '%' :: r
        else none
      | d :: rest, a :: args' =>
        if d = 's' then (Sprintf rest args').map fun r => a.verbS ++ r
        else if d = '%' then (Sprintf rest (a :: args')).map fun r => '%' :: r
        else none
    else (Sprintf tl args).map fun r => c :: r

/-! ## The prompt builder (`cmd/prompt/template.go`, `cmd/chat.go`, `cmd/check.go`) -/

/-- The constant `promptTpl.Template`. -/
def Template : GoString :=
  "\nIMPORTANT:\n1. If the \"Action\" is a tool, then don\x27t make up \"Observation\" and \"Final Answer\"\n2. For ANY deletion operation, you MUST first use HumanTool to get confirmation\n3. ONLY use DeleteTool AFTER receiving explicit confirmation through HumanTool\n------\n\nTOOLS:\n------\n\nYou have access to the following tools:\n\n%s\n\nTo use a tool, please use the following format:\n\nThought: Do I need to use a tool? Yes\nAction: the action to take, should be one of [%s]\nAction Input: the input to the action. should be a valid JSON object in the format of \x7b\"prompt\":\"xxx\", \"resource\":\"xxx\"\x7d\nPause: wait for Human response to you the result of action using Observation\n\nThen wait for Human response to you the result of action using Observation.\n... (this Thought/Action/Action Input/Observation can repeat N times)\nWhen you have a response to say to the Human, or if you do not need to use a tool, you MUST use the format:\n\nThought: Do I need to use a tool? No\nFinal Answer: [your response here]\n\nBegin!\n\nNew input: %s\n\n".toList

/-- `buildPrompt` of `cmd/chat.go`; `none` stands for a format outside the modelled
fragment of `fmt.Sprintf`. -/
def buildPrompt (createTool : CreateTool) (listTool : ListTool) (deleteTool : DeleteTool)
    (humanTool : HumanTool) (query : GoString) : Option GoString :=
  let createToolDef := "Name: ".toList ++ createTool.Name ++ "\nDescription: ".toList ++
    createTool.Description ++ "\nArgsSchema: ".toList ++ createTool.ArgsSchema ++ "\n".toList
  let listToolDef := "Name: ".toList ++ listTool.Name ++ "\nDescription: ".toList ++
    listTool.Description ++ "\nArgsSchema: ".toList ++ listTool.ArgsSchema ++ "\n".toList
  let deleteToolDef := "Name: ".toList ++ deleteTool.Name ++ "\nDescription: ".toList ++
    deleteTool.Description ++ "\nArgsSchema: ".toList ++ deleteTool.ArgsSchema ++ "\n".toList
  let humanToolDef := "Name: ".toList ++ humanTool.Name ++ "\nDescription: ".toList ++
    humanTool.Description ++ "\nArgsSchema: ".toList ++ humanTool.ArgsSchema ++ "\n".toList
  let toolsList := [createToolDef, listToolDef, deleteToolDef, humanToolDef]
  let toolNames := [createTool.Name, listTool.Name, deleteTool.Name, humanTool.Name]
  Sprintf Template [.strs toolsList, .strs toolNames, .str query]

/-- `buildCheckPrompt` of `cmd/check.go`. -/
def buildCheckPrompt (kubeTool : KubeTool) (searchTool : SerpApiTool)
    (requestTool : RequestsTool) (query : GoString) : Option GoString :=
  let kubeToolDef := "Name: ".toList ++ kubeTool.Name ++ "\nDescription: ".toList ++
    kubeTool.Description ++ "\nArgsSchema: ".toList ++ kubeTool.ArgsSchema ++ "\n".toList
  let searchToolDef := "Name: ".toList ++ searchTool.Name ++ "\nDescription: ".toList ++
    searchTool.Description ++ "\nArgsSchema: ".toList ++ searchTool.ArgsSchema ++ "\n".toList
  let requestToolDef := "Name: ".toList ++ requestTool.Name ++ "\nDescription: ".toList ++
    requestTool.Description ++ "\nArgsSchema: ".toList ++ requestTool.ArgsSchema ++ "\n".toList
  let toolsList := [kubeToolDef, searchToolDef, requestToolDef]
  let toolNames := [kubeTool.Name, searchTool.Name, requestTool.Name]
  Sprintf Template [.strs toolsList, .strs toolNames, .str query]

/-- The text of `Template` before its first `%s`. -/
def templateHead : GoString :=
  "\nIMPORTANT:\n1. If the \"Action\" is a tool, then don\x27t make up \"Observation\" and \"Final Answer\"\n2. For ANY deletion operation, you MUST first use HumanTool to get confirmation\n3. ONLY use DeleteTool AFTER receiving explicit confirmation through HumanTool\n------\n\nTOOLS:\n------\n\nYou have access to the following tools:\n\n".toList

/-- The text of `Template` between its first and its second `%s`. -/
def templateMid1 : GoString :=
  "\n\nTo use a tool, please use the following format:\n\nThought: Do I need to use a tool? Yes\nAction: the action to take, should be one of [".toList

/-- The text of `Template` between its second and its third `%s`. -/
def templateMid2 : GoString :=
  "]\nAction Input: the input to the action. should be a valid JSON object in the format of \x7b\"prompt\":\"xxx\", \"resource\":\"xxx\"\x7d\nPause: wait for Human response to you the result of action using Observation\n\nThen wait for Human response to you the result of action using Observation.\n... (this Thought/Action/Action Input/Observation can repeat N times)\nWhen you have a response to say to the Human, or if you do not need to use a tool, you MUST use the format:\n\nThought: Do I need to use a tool? No\nFinal Answer: [your response here]\n\nBegin!\n\nNew input: ".toList

/-- The text of `Template` after its third `%s`. -/
def templateTail : GoString :=
  "\n\n".toList

/-- The block of one tool in the prompt: its name, description and argument schema. -/
def toolBlock (name description argsSchema : GoString) : GoString :=
  "Name: ".toList ++ name ++ "\nDescription: ".toList ++ description ++
    "\nArgsSchema: ".toList ++ argsSchema ++ "\n".toList

/-- The prompt as the specification words it: the template with its slots filled by the
concatenation of the tool blocks, the tool names joined by `sep`, and the query. -/
def promptAsSpecified (sep : GoString) (blocks names : List GoString) (query : GoString) :
    GoString :=
  templateHead ++ blocks.flatten ++ templateMid1 ++ sep.intercalate names ++ templateMid2 ++
    query ++ templateTail

/-! ## The namespace suffix of `runChatLoop` and `runCheckLoop` -/

/-- One rune of the text against one lower case ASCII letter `p` of a pattern compiled
with the flag `(?i)`: Go matches every rune of the simple case folding orbit of `p`,
which is `p`, its capital and, for `s` and `k`, the long s (U+017F) and the Kelvin sign
(U+212A). -/
def matchFold (p c : Char) : Bool :=
  c == p || c == p.toUpper || (p == 's' && c == Char.ofNat 0x17f)
    || (p == 'k' && c == Char.ofNat 0x212a)

/-- The pattern matches at the start of the text, rune by rune under `matchFold`. -/
def foldPrefix : GoString → GoString → Bool
  | [], _ => true
  | _ :: _, [] => false
  | p :: ps, c :: cs => matchFold p c && foldPrefix ps cs

/-- The pattern matches somewhere in the text. -/
def foldMatch (pattern : GoString) : GoString → Bool
  | [] => foldPrefix pattern []
  | c :: cs => foldPrefix pattern (c :: cs) || foldMatch pattern cs

/-- The call `regexp.MustCompile("(?i)namespace").MatchString(input)`. -/
def namespaceRegexp_MatchString (input : GoString) : Bool :=
  foldMatch "namespace".toList input

/-- The lines of `runChatLoop` and `runCheckLoop` that add the namespace to the input
before the prompt is built: the value of `input` after the `if`. -/
def namespacedInput (namespace_ input : GoString) : Option GoString :=
  if namespace_ ≠ [] && !namespaceRegexp_MatchString input then
    Sprintf "%s (in namespace %s)".toList [.str input, .str namespace_]
  else some input

/-! ## `cmd/tools/human.go` -/

/-- `(*HumanTool).Run`, given the token that `fmt.Scanln` stored in `input`: the format
handed to `utils.PrintYellowNoNewline`, and the returned text. -/
def HumanTool.Run (_h : HumanTool) (prompt input : GoString) : GoString × GoString :=
  (prompt ++ " (yes/no): ".toList,
    if input = "y".toList ∨ input = "yes".toList then
      "Human confirmed! Do I need to use a tool? Yes".toList
    else if input = "n".toList ∨ input = "no".toList then
      "Human declined! Do I need to use a tool? No".toList
    else "Human response: ".toList ++ input)

/-! ## `cmd/tools/kubetool.go` -/

/-- Go `strings.Trim`: drops the leading and the trailing runes that are in `cutset`. -/
def Trim (s cutset : GoString) : GoString :=
  ((s.dropWhile fun c => cutset.contains c).reverse.dropWhile fun c =>
    cutset.contains c).reverse

/-- Go `strings.Split` for a separator of one rune: the text is cut at every occurrence
of the separator, so a text with `n` separators gives `n + 1` pieces. -/
def Split (s : GoString) (sep : Char) : List GoString :=
  match s with
  | [] => [[]]
  | c :: cs =>
    if c = sep then [] :: Split cs sep
    else
      match Split cs sep with
      | [] => [[c]]
      | w :: ws => (c :: w) :: ws

/-- `(*KubeTool).parseCommands`. -/
def KubeTool.parseCommands (_k : KubeTool) (commands : GoString) : GoString :=
  TrimSpace (Trim commands "\"\x60".toList)

/-- `(*KubeTool).splitCommands`. -/
def KubeTool.splitCommands (_k : KubeTool) (commands : GoString) : List GoString :=
  Split commands ' '

/-- `(*KubeTool).Run`.  `exec prog args` stands for `exec.Command(prog, args...).Output()`:
the bytes written by the process and the error, if any.  The result is `none` when the
access to element 0 of the split command is out of range. -/
def KubeTool.Run (k : KubeTool) (exec : GoString → List GoString → GoString × Option GoString)
    (commands : GoString) : Option (GoString × Option GoString) :=
  let parsedCommands := k.parseCommands commands
  let splitedCommands := k.splitCommands parsedCommands
  match splitedCommands with
  | [] => none
  | prog :: args =>
    match exec prog args with
    | (_, some err) => some ([], some err)
    | (output, none) => some ("The result of the command execution: ".toList ++ output, none)

/-! ## `cmd/utils/colorPrint.go` -/

/-- The constant `utils.Reset`. -/
def Reset : GoString := "\x1b[0m".toList

/-- The constant `utils.Yellow`. -/
def Yellow : GoString := "\x1b[33m".toList

/-- The constant `utils.Cyan`. -/
def Cyan : GoString := "\x1b[36m".toList

/-- `utils.PrintCyan(format)` without further arguments: the bytes written, or `none`
when the format is outside the modelled fragment of `fmt`. -/
def PrintCyan (format : GoString) : Option GoString :=
  Sprintf (Cyan ++ format ++ Reset ++ "\n".toList) []

/-- `utils.PrintYellow(format)` without further arguments. -/
def PrintYellow (format : GoString) : Option GoString :=
  Sprintf (Yellow ++ format ++ Reset ++ "\n".toList) []

/-- The bytes that one recorded colour print writes. -/
def Printed.render : Printed → Option GoString
  | .cyan format => PrintCyan format
  | .yellow format => PrintYellow format

/-! ## Sequences of operations on the conversation store -/

/-- One of the three append operations of the store, with its argument. -/
inductive StoreAppend where
  | user (msg : GoString)
  | system (msg : GoString)
  | assistant (rsp : ChatCompletionMessage)

/-- The store after one append operation. -/
def StoreAppend.apply (cm : ChatMessages) : StoreAppend → ChatMessages
  | .user msg => cm.AddUser msg
  | .system msg => cm.AddSystem msg
  | .assistant rsp => cm.AddAssistant rsp

/-- One step that can change the store during a run of either command: `Clear`, an
append, or one iteration of the agent loop (with any dispatcher, replies and mode). -/
inductive StoreStep where
  | clear
  | append (a : StoreAppend)
  | iteration (handle : Handler) (replies : Nat → ChatCompletionMessage) (debugMode : Bool)

/-- The turn state after one step. -/
def StoreStep.apply (s : TurnState) : StoreStep → TurnState
  | .clear => { s with store := s.store.Clear }
  | .append a => { s with store := a.apply s.store }
  | .iteration handle replies debugMode => (loopBody handle replies debugMode s).1

/-- The argument text of the list scenario: a JSON object with the resource `pod` and
the namespace `default`. -/
def listPodJson : GoString :=
  "\x7b\"resource\":\"pod\",\"namespace\":\"default\"\x7d".toList

/-- An environment for examples in which `json.Unmarshal` decodes `listPodJson` into the
parameters of the list tool, as `encoding/json` does, and fails on every other input. -/
def listPodEnv : ChatEnv :=
  { sampleChatEnv with
    unmarshalList := fun input =>
      if input = listPodJson then
        .ok { Resource := "pod".toList, Namespace := "default".toList }
      else .error "bad".toList }

/-! ## `cmd/tools/create.go` -/

/-- The constant `promptTpl.K8sAssistantPrompt`. -/
def K8sAssistantPrompt : GoString :=
  "\nYou are a Kubernetes expert. Generate valid Kubernetes resource definitions based on user requirements.\n\nOutput guidelines:\n- Output ONLY the YAML content without explanations, comments, or markdown formatting\n- Create YAML that is guaranteed to be executable by the \"kubectl apply\" command\n- Include all necessary fields for the requested resource type\n- Ensure proper YAML indentation\n- Follow Kubernetes best practices and naming conventions\n- ALWAYS output the namespace in the YAML file\n\n".toList

/-- The scan of Go `strings.Replace(s, old, new, -1)`: `skip` runes of an occurrence that
was just replaced are still to be passed over; after that, an occurrence of `old` at the
current position is replaced by `new` and every other rune is copied. -/
def replaceFrom (old new : GoString) : Nat → GoString → GoString
  | _, [] => []
  | skip + 1, _ :: cs => replaceFrom old new skip cs
  | 0, c :: cs =>
    if old <+: c :: cs then new ++ replaceFrom old new (old.length - 1) cs
    else c :: replaceFrom old new 0 cs

/-- Go `strings.Replace(s, old, new, -1)` for an `old` that is not empty: from the left,
every occurrence of `old` that does not overlap an earlier one is replaced by `new`. -/
def Replace (s old new : GoString) : GoString :=
  replaceFrom old new 0 s

/-- Go `strings.HasSuffix`. -/
def HasSuffix (s suffix : GoString) : Bool :=
  decide (suffix <:+ s)

/-- The struct `response` of `cmd/tools/create.go`. -/
structure response where
  Data : GoString
  Error : GoString
  deriving DecidableEq

/-- The external calls made by `(*CreateTool).Run`: `ai.Chat`, `os.LookupEnv`,
`json.Marshal` of the map with the one key `yaml`, `utils.PostHTTP` and `json.Unmarshal`
into `response`.  A Go `error` is modelled by its text. -/
structure CreateEnv where
  Chat : List ChatCompletionMessage → ChatCompletionMessage
  LookupEnv : GoString → Option GoString
  marshalYaml : GoString → Except GoString GoString
  PostHTTP : GoString → GoString → GoString × Option GoString
  unmarshalResponse : GoString → Except GoString response

/-- `utils.GetEnv`. -/
def GetEnv (lookupEnv : GoString → Option GoString) (key fallback : GoString) : GoString :=
  match lookupEnv key with
  | some value => value
  | none => fallback

/-- What one call of `(*CreateTool).Run` did: the returned text, the cleaned value of
`rsp.Content` (the manifest that goes into the request body), and the URL and body given
to `utils.PostHTTP` when that call was reached. -/
structure CreateOutcome where
  result : GoString
  manifest : GoString
  posted : Option (GoString × GoString)
  deriving DecidableEq

/-- `(*CreateTool).Run`. -/
def CreateTool.Run (_c : CreateTool) (env : CreateEnv) (prompt resource : GoString)
    (_debugMode : Bool) : CreateOutcome :=
  let messages : List ChatCompletionMessage :=
    [{ Role := "system".toList, Content := K8sAssistantPrompt },
     { Role := "user".toList, Content := prompt }]
  let rsp := env.Chat messages
  let content1 := Replace rsp.Content "\x60\x60\x60yaml".toList []
  let content2 := Replace content1 "\x60\x60\x60".toList []
  let content := TrimSpace content2
  match env.marshalYaml content with
  | .error err => { result := err, manifest := content, posted := none }
  | .ok jsonBody =>
    let apiURL := GetEnv env.LookupEnv "KGENT_API_URL".toList
      "http://localhost:8000/api/v1/resources".toList
    let apiURL := if !HasSuffix apiURL "/".toList then apiURL ++ "/".toList else apiURL
    let url := apiURL ++ resource
    match env.PostHTTP url jsonBody with
    | (_, some err) => { result := err, manifest := content, posted := some (url, jsonBody) }
    | (s, none) =>
      match env.unmarshalResponse s with
      | .error err => { result := err, manifest := content, posted := some (url, jsonBody) }
      | .ok response =>
        if response.Data = [] then
          { result := response.Error, manifest := content, posted := some (url, jsonBody) }
        else { result := response.Data, manifest := content, posted := some (url, jsonBody) }

/-- An environment for examples: the model answers with the given text, the JSON body is
the manifest between two fixed texts, and the resource API answers with the data `ok`. -/
def sampleCreateEnv (reply : String) : CreateEnv :=
  { Chat := fun _ => { Role := "assistant".toList, Content := reply.toList }
    LookupEnv := fun _ => none
    marshalYaml := fun yaml => .ok ("\x7b\"yaml\":\"".toList ++ yaml ++ "\"\x7d".toList)
    PostHTTP := fun _ _ => ("body".toList, none)
    unmarshalResponse := fun _ => .ok { Data := "ok".toList, Error := [] } }

/-! ## Lemmas on the standard library functions -/

theorem afterFirst_eq_none_iff (m : GoString) (s : GoString) :
    afterFirst m s = none ↔ ¬ m <:+: s := by
  induction s with
  | nil =>
    by_cases hm : m = []
    · simp [afterFirst, hm]
    · simp [afterFirst, hm]
  | cons c cs ih =>
    rw [List.infix_cons_iff]
    by_cases hp : m <+: c :: cs
    · simp [afterFirst, hp]
    · simp [afterFirst, hp, ih]

theorem afterFirst_first (m pre rest : GoString)
    (hfirst : ∀ k, k < pre.length → ¬ m <+: (pre ++ m ++ rest).drop k) :
    afterFirst m (pre ++ m ++ rest) = some rest := by
  induction pre with
  | nil =>
    cases hs : m ++ rest with
    | nil =>
      have h1 : m = [] := (List.append_eq_nil.mp hs).1
      have h2 : rest = [] := (List.append_eq_nil.mp hs).2
      simp [afterFirst, h1, h2]
    | cons c cs =>
      have hp : m <+: c :: cs := by rw [← hs]; exact List.prefix_append m rest
      have hd : (c :: cs).drop m.length = rest := by rw [← hs]; simp
      simp only [List.nil_append, hs, afterFirst, hp, if_true, hd]
  | cons c p ih =>
    have h0 : ¬ m <+: c :: (p ++ m ++ rest) := by
      have := hfirst 0 (by simp)
      simpa using this
    have ht : ∀ k, k < p.length → ¬ m <+: (p ++ m ++ rest).drop k := by
      intro k hk
      have := hfirst (k + 1) (by simpa using hk)
      simpa using this
    have hc : (c :: p) ++ m ++ rest = c :: (p ++ m ++ rest) := by simp
    rw [hc, afterFirst, if_neg h0]
    exact ih ht

/-- Every text that contains `m` splits at the leftmost occurrence of `m`, and
`afterFirst` returns what follows it. -/
theorem afterFirst_of_infix (m : GoString) (s : GoString) (h : m <:+: s) :
    ∃ pre rest, s = pre ++ m ++ rest ∧ afterFirst m s = some rest ∧
      ∀ k, k < pre.length → ¬ m <+: s.drop k := by
  induction s with
  | nil =>
    have hm : m = [] := List.infix_nil.mp h
    exact ⟨[], [], by simp [hm], by simp [afterFirst, hm], by simp⟩
  | cons c cs ih =>
    by_cases hp : m <+: c :: cs
    · refine ⟨[], (c :: cs).drop m.length, ?_, by simp [afterFirst, hp], by simp⟩
      simpa using (List.prefix_iff_eq_append.mp hp).symm
    · have hin : m <:+: cs := by
        rcases List.infix_cons_iff.mp h with h1 | h1
        · exact absurd h1 hp
        · exact h1
      obtain ⟨pre, rest, hs, haf, hk⟩ := ih hin
      refine ⟨c :: pre, rest, by simp [hs], by simp [afterFirst, hp, haf], ?_⟩
      intro k hlt
      cases k with
      | zero => simpa using hp
      | succ j =>
        have := hk j (by simpa using hlt)
        simpa using this

theorem isRegexSpace_unicodeIsSpace (c : Char) (h : isRegexSpace c = true) :
    unicodeIsSpace c = true := by
  simp only [isRegexSpace, Bool.or_eq_true, beq_iff_eq] at h
  rcases h with (((h | h) | h) | h) | h <;> subst h <;> decide

theorem dropWhile_unicodeIsSpace_dropWhile (l : GoString) :
    (l.dropWhile isRegexSpace).dropWhile unicodeIsSpace = l.dropWhile unicodeIsSpace := by
  induction l with
  | nil => rfl
  | cons c cs ih =>
    by_cases hc : isRegexSpace c = true
    · simp [List.dropWhile_cons, hc, isRegexSpace_unicodeIsSpace c hc, ih]
    · simp [List.dropWhile_cons, hc]

theorem TrimSpace_dropWhile (l : GoString) :
    TrimSpace (l.dropWhile isRegexSpace) = TrimSpace l := by
  simp [TrimSpace, dropWhile_unicodeIsSpace_dropWhile]

theorem takeWhile_dot_dropWhile (rest : GoString)
    (h : ∃ c, c ∈ rest.takeWhile isRegexDot ∧ isRegexSpace c = false) :
    (rest.dropWhile isRegexSpace).takeWhile isRegexDot
      = (rest.takeWhile isRegexDot).dropWhile isRegexSpace := by
  induction rest with
  | nil => rfl
  | cons c cs ih =>
    by_cases hd : isRegexDot c = true
    · by_cases hs : isRegexSpace c = true
      · have h2 : ∃ c, c ∈ cs.takeWhile isRegexDot ∧ isRegexSpace c = false := by
          obtain ⟨x, hx, hxs⟩ := h
          simp only [List.takeWhile_cons, hd, if_true, List.mem_cons] at hx
          rcases hx with hx | hx
          · subst hx; simp [hs] at hxs
          · exact ⟨x, hx, hxs⟩
        simp [List.dropWhile_cons, List.takeWhile_cons, hd, hs, ih h2]
      · simp [List.dropWhile_cons, List.takeWhile_cons, hd, hs]
    · obtain ⟨x, hx, _⟩ := h
      simp [List.takeWhile_cons, hd] at hx

theorem takeWhile_dot_of_no_lf (l : GoString) (h : '\n' ∉ l) :
    l.takeWhile isRegexDot = l := by
  rw [List.takeWhile_eq_self_iff]
  intro c hc
  simp only [isRegexDot, bne_iff_ne, ne_eq]
  intro hcn
  exact h (hcn ▸ hc)

theorem no_lf_dropWhile (l : GoString) (h : '\n' ∉ l) : '\n' ∉ l.dropWhile isRegexSpace :=
  fun hm => h ((List.dropWhile_suffix _).subset hm)

theorem Contains_of_eq (content pre m rest : GoString) (hc : content = pre ++ m ++ rest) :
    Contains content m = true := by
  simp only [Contains, decide_eq_true_eq]
  exact ⟨pre, rest, hc.symm⟩

theorem regexPattern_of_afterFirst (content rest : GoString)
    (h : afterFirst finalAnswerMarker content = some rest) :
    regexPattern_FindStringSubmatch content =
      [finalAnswerMarker ++ rest.takeWhile isRegexSpace ++
          (rest.dropWhile isRegexSpace).takeWhile isRegexDot,
        (rest.dropWhile isRegexSpace).takeWhile isRegexDot] := by
  simp [regexPattern_FindStringSubmatch, h]

theorem regexPattern_of_not_infix (content : GoString)
    (h : ¬ finalAnswerMarker <:+: content) :
    regexPattern_FindStringSubmatch content = [] := by
  simp [regexPattern_FindStringSubmatch, (afterFirst_eq_none_iff _ _).mpr h]

theorem regexLine_length (marker content : GoString) :
    (regexLine_FindStringSubmatch marker content).length > 1 ↔ marker <:+: content := by
  cases h : afterFirst marker content with
  | none =>
    have := (afterFirst_eq_none_iff _ _).mp h
    simp [regexLine_FindStringSubmatch, h, this]
  | some rest =>
    have : marker <:+: content := by
      by_contra hn
      rw [(afterFirst_eq_none_iff _ _).mpr hn] at h
      cases h
    simp [regexLine_FindStringSubmatch, h, this]

theorem regexPattern_length (content : GoString) :
    (regexPattern_FindStringSubmatch content).length > 0 ↔ finalAnswerMarker <:+: content := by
  cases h : afterFirst finalAnswerMarker content with
  | none =>
    have := (afterFirst_eq_none_iff _ _).mp h
    simp [regexPattern_FindStringSubmatch, h, this]
  | some rest =>
    have : finalAnswerMarker <:+: content := by
      by_contra hn
      rw [(afterFirst_eq_none_iff _ _).mpr hn] at h
      cases h
    simp [regexPattern_FindStringSubmatch, h, this]

/-! ## Lemmas on the loop body -/

theorem loopBody_of_final (handle : Handler) (replies : Nat → ChatCompletionMessage)
    (debugMode : Bool) (s : TurnState)
    (h : finalAnswerMarker <:+: (replies s.modelCalls.length).Content) :
    loopBody handle replies debugMode s =
      ({ s with
          modelCalls := s.modelCalls ++ [s.store.GetMessage]
          printed := s.printed ++
            (if debugMode then
              [.cyan "# Final Answer from LLM:".toList,
               .cyan (replies s.modelCalls.length).Content,
               .cyan "-------------------------------------------------".toList]
            else
              [.cyan (TrimSpace ((regexPattern_FindStringSubmatch
                (replies s.modelCalls.length).Content).getD 1 []))]) }, true) := by
  have hl := (regexPattern_length _).mpr h
  cases debugMode <;> simp [loopBody, Contains, h, hl]

theorem loopBody_of_not_final (handle : Handler) (replies : Nat → ChatCompletionMessage)
    (debugMode : Bool) (s : TurnState)
    (h : ¬ finalAnswerMarker <:+: (replies s.modelCalls.length).Content) :
    loopBody handle replies debugMode s =
      (if actionMarker <:+: (replies s.modelCalls.length).Content ∧
          actionInputMarker <:+: (replies s.modelCalls.length).Content then
        { store := (s.store.AddAssistant (replies s.modelCalls.length)).AddUser
            ((replies s.modelCalls.length).Content ++ "\n".toList ++ ("Observation: ".toList ++
              (handle (s.modelCalls.length + 1)
                ((regexAction_FindStringSubmatch (replies s.modelCalls.length).Content).getD 1 [])
                ((regexActionInput_FindStringSubmatch
                  (replies s.modelCalls.length).Content).getD 1 [])
                debugMode).1))
          loopCount := s.loopCount + 1
          modelCalls := s.modelCalls ++ [s.store.GetMessage]
          printed := s.printed ++ (if debugMode then [] else [.cyan "Thinking...".toList])
          dispatched := s.dispatched ++
            [((regexAction_FindStringSubmatch (replies s.modelCalls.length).Content).getD 1 [],
              (regexActionInput_FindStringSubmatch
                (replies s.modelCalls.length).Content).getD 1 [])]
          toolRuns := s.toolRuns ++
            (handle (s.modelCalls.length + 1)
              ((regexAction_FindStringSubmatch (replies s.modelCalls.length).Content).getD 1 [])
              ((regexActionInput_FindStringSubmatch
                (replies s.modelCalls.length).Content).getD 1 [])
              debugMode).2.toList }
      else
        { store := s.store.AddAssistant (replies s.modelCalls.length)
          loopCount := s.loopCount + 1
          modelCalls := s.modelCalls ++ [s.store.GetMessage]
          printed := s.printed ++ (if debugMode then [] else [.cyan "Thinking...".toList])
          dispatched := s.dispatched
          toolRuns := s.toolRuns }, false) := by
  have hl : ¬ (regexPattern_FindStringSubmatch (replies s.modelCalls.length).Content).length > 0 :=
    fun hh => h ((regexPattern_length _).mp hh)
  have ha := regexLine_length actionMarker (replies s.modelCalls.length).Content
  have hi := regexLine_length actionInputMarker (replies s.modelCalls.length).Content
  by_cases h1 : actionMarker <:+: (replies s.modelCalls.length).Content
  · by_cases h2 : actionInputMarker <:+: (replies s.modelCalls.length).Content
    · have ha1 := ha.mpr h1
      have hi1 := hi.mpr h2
      cases debugMode <;>
        simp [loopBody, Contains, h, hl, h1, h2, regexAction_FindStringSubmatch,
          regexActionInput_FindStringSubmatch, ha1, hi1]
    · have hi1 : ¬ (regexLine_FindStringSubmatch actionInputMarker
          (replies s.modelCalls.length).Content).length > 1 := fun hh => h2 (hi.mp hh)
      cases debugMode <;>
        simp [loopBody, Contains, h, hl, h1, h2, regexAction_FindStringSubmatch,
          regexActionInput_FindStringSubmatch, hi1]
  · have ha1 : ¬ (regexLine_FindStringSubmatch actionMarker
        (replies s.modelCalls.length).Content).length > 1 := fun hh => h1 (ha.mp hh)
    cases debugMode <;>
      simp [loopBody, Contains, h, hl, h1, regexAction_FindStringSubmatch,
        regexActionInput_FindStringSubmatch, ha1]

theorem loopBody_modelCalls (handle : Handler) (replies : Nat → ChatCompletionMessage)
    (debugMode : Bool) (s : TurnState) :
    (loopBody handle replies debugMode s).1.modelCalls
      = s.modelCalls ++ [s.store.GetMessage] := by
  by_cases h : finalAnswerMarker <:+: (replies s.modelCalls.length).Content
  · rw [loopBody_of_final handle replies debugMode s h]
  · rw [loopBody_of_not_final handle replies debugMode s h]
    split <;> rfl

theorem loopBody_not_final_snd (handle : Handler) (replies : Nat → ChatCompletionMessage)
    (debugMode : Bool) (s : TurnState)
    (h : ¬ finalAnswerMarker <:+: (replies s.modelCalls.length).Content) :
    (loopBody handle replies debugMode s).2 = false := by
  rw [loopBody_of_not_final handle replies debugMode s h]

theorem loopBody_not_final_loopCount (handle : Handler)
    (replies : Nat → ChatCompletionMessage) (debugMode : Bool) (s : TurnState)
    (h : ¬ finalAnswerMarker <:+: (replies s.modelCalls.length).Content) :
    (loopBody handle replies debugMode s).1.loopCount = s.loopCount + 1 := by
  rw [loopBody_of_not_final handle replies debugMode s h]
  split <;> rfl

/-! ## Lemmas on the loop -/

theorem loopFrom_exhaust (handle : Handler) (replies : Nat → ChatCompletionMessage)
    (maxLoops : Int) (debugMode : Bool) (n : Nat) :
    ∀ (fuel : Nat) (s : TurnState), n ≤ fuel → (maxLoops + 1 - s.loopCount).toNat = n →
      (∀ j, j < n → ¬ finalAnswerMarker <:+: (replies (s.modelCalls.length + j)).Content) →
      ∃ s', loopFrom handle replies maxLoops debugMode fuel s = some s' ∧
        maxLoops < s'.loopCount ∧ s'.modelCalls.length = s.modelCalls.length + n := by
  induction n with
  | zero =>
    intro fuel s _ hn _
    have hg : ¬ s.loopCount ≤ maxLoops := by omega
    refine ⟨s, ?_, by omega, rfl⟩
    cases fuel <;> simp [loopFrom, hg]
  | succ n ih =>
    intro fuel s hf hn hno
    obtain ⟨f, rfl⟩ : ∃ f, fuel = f + 1 := ⟨fuel - 1, by omega⟩
    have hg : s.loopCount ≤ maxLoops := by omega
    have h0 : ¬ finalAnswerMarker <:+: (replies s.modelCalls.length).Content := by
      simpa using hno 0 (by omega)
    have hsnd := loopBody_not_final_snd handle replies debugMode s h0
    have hlc := loopBody_not_final_loopCount handle replies debugMode s h0
    have hmc := loopBody_modelCalls handle replies debugMode s
    have hlen : (loopBody handle replies debugMode s).1.modelCalls.length
        = s.modelCalls.length + 1 := by rw [hmc]; simp
    obtain ⟨s', hs', hgt, hcalls⟩ := ih f (loopBody handle replies debugMode s).1 (by omega)
      (by rw [hlc]; omega)
      (by
        intro j hj
        rw [hlen]
        have := hno (j + 1) (by omega)
        rwa [show s.modelCalls.length + (j + 1) = s.modelCalls.length + 1 + j by omega] at this)
    refine ⟨s', ?_, hgt, by rw [hcalls, hlen]; omega⟩
    rw [loopFrom, if_pos hg]
    rcases hb : loopBody handle replies debugMode s with ⟨s1, b⟩
    rw [hb] at hsnd hs'
    simp only at hsnd hs'
    subst hsnd
    exact hs'

theorem loopFrom_final (handle : Handler) (replies : Nat → ChatCompletionMessage)
    (maxLoops : Int) (debugMode : Bool) (k : Nat) :
    ∀ (fuel : Nat) (s : TurnState), k < fuel → s.loopCount + k ≤ maxLoops →
      (∀ j, j < k → ¬ finalAnswerMarker <:+: (replies (s.modelCalls.length + j)).Content) →
      finalAnswerMarker <:+: (replies (s.modelCalls.length + k)).Content →
      ∃ s0, loopFrom handle replies maxLoops debugMode fuel s
          = some (loopBody handle replies debugMode s0).1 ∧
        s0.loopCount = s.loopCount + k ∧ s0.modelCalls.length = s.modelCalls.length + k ∧
        finalAnswerMarker <:+: (replies s0.modelCalls.length).Content := by
  induction k with
  | zero =>
    intro fuel s hf hle _ hfin
    obtain ⟨f, rfl⟩ : ∃ f, fuel = f + 1 := ⟨fuel - 1, by omega⟩
    have hg : s.loopCount ≤ maxLoops := by omega
    refine ⟨s, ?_, by simp, rfl, by simpa using hfin⟩
    rw [loopFrom, if_pos hg, loopBody_of_final handle replies debugMode s (by simpa using hfin)]
  | succ k ih =>
    intro fuel s hf hle hno hfin
    obtain ⟨f, rfl⟩ : ∃ f, fuel = f + 1 := ⟨fuel - 1, by omega⟩
    have hg : s.loopCount ≤ maxLoops := by omega
    have h0 : ¬ finalAnswerMarker <:+: (replies s.modelCalls.length).Content := by
      simpa using hno 0 (by omega)
    have hsnd := loopBody_not_final_snd handle replies debugMode s h0
    have hlc := loopBody_not_final_loopCount handle replies debugMode s h0
    have hmc := loopBody_modelCalls handle replies debugMode s
    have hlen : (loopBody handle replies debugMode s).1.modelCalls.length
        = s.modelCalls.length + 1 := by rw [hmc]; simp
    have hidx : ∀ j, s.modelCalls.length + (j + 1) = s.modelCalls.length + 1 + j := by
      intro j; omega
    obtain ⟨s0, hs0, hc0, hm0, hf0⟩ := ih f (loopBody handle replies debugMode s).1 (by omega)
      (by rw [hlc]; push_cast at hle ⊢; omega)
      (by
        intro j hj
        rw [hlen, ← hidx]
        exact hno (j + 1) (by omega))
      (by rw [hlen, ← hidx]; exact hfin)
    refine ⟨s0, ?_, by rw [hc0, hlc]; push_cast; omega, by rw [hm0, hlen]; omega, hf0⟩
    rw [loopFrom, if_pos hg]
    rcases hb : loopBody handle replies debugMode s with ⟨s1, b⟩
    rw [hb] at hsnd hs0
    simp only at hsnd hs0
    subst hsnd
    exact hs0

/-! ## The claims -/

/-- C1, as the code behaves.  When the reply contains the marker `Final Answer:`, the
loop body leaves through `break` (the reply is a final answer) and dispatches nothing,
whatever action lines the reply holds.  Outside debug mode the text it prints is
`trim(X)`, where `X` starts after the first marker and after every white space rune
(space, tab, form feed, carriage return, line feed) that follows the marker, and runs to
the next line feed; in debug mode the whole reply is printed between two fixed lines.
This `X` has the same trim as the rest of the line of the marker whenever that rest holds
a rune that is not white space, or the reply ends on that line. -/
theorem final_answer_text (handle : Handler) (replies : Nat → ChatCompletionMessage)
    (debugMode : Bool) (s : TurnState) (pre rest : GoString)
    (hc : (replies s.modelCalls.length).Content = pre ++ finalAnswerMarker ++ rest)
    (hfirst : ∀ k, k < pre.length →
      ¬ finalAnswerMarker <+: (pre ++ finalAnswerMarker ++ rest).drop k) :
    (loopBody handle replies debugMode s).2 = true ∧
    (loopBody handle replies debugMode s).1.printed = s.printed ++
      (if debugMode then
        [.cyan "# Final Answer from LLM:".toList, .cyan (pre ++ finalAnswerMarker ++ rest),
         .cyan "-------------------------------------------------".toList]
      else [.cyan (TrimSpace ((rest.dropWhile isRegexSpace).takeWhile isRegexDot))]) ∧
    (loopBody handle replies debugMode s).1.dispatched = s.dispatched ∧
    (loopBody handle replies debugMode s).1.toolRuns = s.toolRuns ∧
    (((∃ c, c ∈ rest.takeWhile isRegexDot ∧ isRegexSpace c = false) ∨ '\n' ∉ rest) →
      TrimSpace ((rest.dropWhile isRegexSpace).takeWhile isRegexDot)
        = TrimSpace (rest.takeWhile isRegexDot)) := by
  have hin : finalAnswerMarker <:+: (replies s.modelCalls.length).Content :=
    ⟨pre, rest, hc.symm⟩
  have haf : afterFirst finalAnswerMarker (replies s.modelCalls.length).Content = some rest := by
    rw [hc]; exact afterFirst_first _ _ _ hfirst
  have hre := regexPattern_of_afterFirst _ _ haf
  rw [loopBody_of_final handle replies debugMode s hin, hre]
  refine ⟨rfl, ?_, rfl, rfl, ?_⟩
  · simp [hc]
  · rintro (h | h)
    · rw [takeWhile_dot_dropWhile rest h, TrimSpace_dropWhile]
    · rw [takeWhile_dot_of_no_lf _ (no_lf_dropWhile rest h), takeWhile_dot_of_no_lf _ h,
        TrimSpace_dropWhile]

/-- C1, witness: a reply with a thought line, the final answer and an action line. -/
theorem final_answer_text_witness :
    (loopBody sampleHandler
        (fun _ => replyOf "Thought: no\nFinal Answer: all good \nAction: ListTool")
        false (TurnState.start [])).1.printed
      = [] ++ (if false = true then
          [.cyan "# Final Answer from LLM:".toList,
           .cyan ("Thought: no\n".toList ++ finalAnswerMarker
              ++ " all good \nAction: ListTool".toList),
           .cyan "-------------------------------------------------".toList]
        else [.cyan (TrimSpace (((" all good \nAction: ListTool".toList).dropWhile
          isRegexSpace).takeWhile isRegexDot))]) :=
  (final_answer_text sampleHandler
    (fun _ => replyOf "Thought: no\nFinal Answer: all good \nAction: ListTool")
    false (TurnState.start []) "Thought: no\n".toList " all good \nAction: ListTool".toList
    (by decide) (by decide)).2.1

/-- C1, counterexample to the claim as written: the marker ends its line, so the rest of
that line is empty and so is its trim, but the loop prints the text of the next line. -/
theorem final_answer_text_counterexample :
    (replyOf "Final Answer:\nThe pod is running.\nAction: ListTool").Content
      = finalAnswerMarker ++ "\nThe pod is running.\nAction: ListTool".toList ∧
    TrimSpace (("\nThe pod is running.\nAction: ListTool".toList).takeWhile isRegexDot) = [] ∧
    (loopBody sampleHandler
        (fun _ => replyOf "Final Answer:\nThe pod is running.\nAction: ListTool")
        false (TurnState.start [])).1.printed
      = [.cyan "The pod is running.".toList] := by
  decide

/-- C2: for every ceiling `N`, every sequence of replies and every dispatcher (so for
`processConversation` and for `processCheckLoop`), the loop returns (with fuel `N` or
more) after at most `N` model calls, none when `N ≤ 0`; when none of the first `N`
replies holds a final answer it makes exactly `N` calls, no more, and the last thing the
turn prints is the exhaustion message. -/
theorem loop_calls_bounded (handle : Handler) (replies : Nat → ChatCompletionMessage)
    (debugMode : Bool) (store : ChatMessages) (N : Int) (fuel : Nat) (hfuel : N.toNat ≤ fuel) :
    ∃ s, agentLoop handle replies N debugMode fuel store = some s ∧
      s.modelCalls.length ≤ N.toNat ∧
      ((∀ k, k < N.toNat → ¬ finalAnswerMarker <:+: (replies k).Content) →
        s.modelCalls.length = N.toNat ∧
        s.printed.getLast? = some (.yellow exhaustedMessage)) := by
  by_cases hex : ∃ k, k < N.toNat ∧ finalAnswerMarker <:+: (replies k).Content
  · classical
    have hk := Nat.find_spec hex
    have hmin : ∀ j, j < Nat.find hex → ¬ finalAnswerMarker <:+: (replies j).Content := by
      intro j hj hin
      exact Nat.find_min hex hj ⟨by omega, hin⟩
    obtain ⟨s0, hs0, _, hm0, hf0⟩ := loopFrom_final handle replies N debugMode (Nat.find hex)
      fuel (TurnState.start store) (by omega)
      (by simp only [TurnState.start]; omega)
      (by intro j hj; simpa [TurnState.start] using hmin j hj)
      (by simpa [TurnState.start] using hk.2)
    have hlen : (loopBody handle replies debugMode s0).1.modelCalls.length
        = Nat.find hex + 1 := by
      rw [loopBody_modelCalls]; simp [hm0, TurnState.start]
    have hno : ¬ ∀ k, k < N.toNat → ¬ finalAnswerMarker <:+: (replies k).Content :=
      fun hall => hall _ hk.1 hk.2
    by_cases hge : (loopBody handle replies debugMode s0).1.loopCount ≥ N
    · refine ⟨_, by simp only [agentLoop, hs0, if_pos hge]; rfl, ?_, fun hall => absurd hall hno⟩
      simp only [hlen]; omega
    · refine ⟨_, by simp only [agentLoop, hs0, if_neg hge]; rfl, ?_, fun hall => absurd hall hno⟩
      simp only [hlen]; omega
  · have hall : ∀ j, j < N.toNat → ¬ finalAnswerMarker <:+: (replies j).Content :=
      fun j hj hin => hex ⟨j, hj, hin⟩
    obtain ⟨s', hs', hgt, hcalls⟩ := loopFrom_exhaust handle replies N debugMode N.toNat
      fuel (TurnState.start store) hfuel
      (by simp [TurnState.start])
      (by intro j hj; simpa [TurnState.start] using hall j hj)
    have hge : s'.loopCount ≥ N := by omega
    refine ⟨_, by simp only [agentLoop, hs', if_pos hge]; rfl, ?_, fun _ => ⟨?_, ?_⟩⟩
    · simp [hcalls, TurnState.start]
    · simp [hcalls, TurnState.start]
    · simp

/-- C2, witness: ceiling 2, two replies without a final answer. -/
theorem loop_calls_bounded_witness :
    ∃ s, agentLoop sampleHandler (fun _ => replyOf "Thought: wait") 2 false 2
        (ChatMessages.Clear []) = some s ∧
      s.modelCalls.length ≤ (2 : Int).toNat ∧
      ((∀ k, k < (2 : Int).toNat →
          ¬ finalAnswerMarker <:+: ((fun _ => replyOf "Thought: wait") k).Content) →
        s.modelCalls.length = (2 : Int).toNat ∧
        s.printed.getLast? = some (.yellow exhaustedMessage)) :=
  loop_calls_bounded sampleHandler (fun _ => replyOf "Thought: wait") false
    (ChatMessages.Clear []) 2 2 (by decide)

/-- C3, the code at a failing input: with ceiling 1 and a first reply that holds the
final answer, both commands print the answer and then the exhaustion message; the same
happens with ceiling 2 when the answer comes in the second reply. -/
theorem exhaustion_after_final_answer :
    (processConversation sampleChatEnv (fun _ => replyOf "Final Answer: done")
        NewCreateTool NewListTool NewDeleteTool NewHumanTool 1 false 1
        (ChatMessages.Clear [])).map (fun s => s.printed)
      = some [.cyan "done".toList, .yellow exhaustedMessage] ∧
    (processCheckLoop sampleCheckEnv (fun _ => replyOf "Final Answer: done")
        NewKubeTool NewSerpApiTool NewRequestsTool 1 false 1
        (ChatMessages.Clear [])).map (fun s => s.printed)
      = some [.cyan "done".toList, .yellow exhaustedMessage] ∧
    (processConversation sampleChatEnv
        (fun k => if k = 0 then replyOf "Thought: wait" else replyOf "Final Answer: done")
        NewCreateTool NewListTool NewDeleteTool NewHumanTool 2 false 2
        (ChatMessages.Clear [])).map (fun s => s.printed)
      = some [.cyan "Thinking...".toList, .cyan "done".toList, .yellow exhaustedMessage] := by
  decide

/-- C4: one loop iteration calls the dispatcher exactly when the reply holds no
`Final Answer:` marker and holds both the `Action:` and the `Action Input:` marker.  In
that case it makes one dispatcher call, on the two extracted texts, and the only tool run
of the iteration is the one made by that call; in every other case (a final answer, or
one or both action markers missing) no dispatcher call and no tool run is made. -/
theorem dispatch_iff_both_markers (handle : Handler) (replies : Nat → ChatCompletionMessage)
    (debugMode : Bool) (s : TurnState) :
    ((loopBody handle replies debugMode s).1.dispatched ≠ s.dispatched ↔
      (¬ finalAnswerMarker <:+: (replies s.modelCalls.length).Content ∧
        actionMarker <:+: (replies s.modelCalls.length).Content ∧
        actionInputMarker <:+: (replies s.modelCalls.length).Content)) ∧
    ((¬ finalAnswerMarker <:+: (replies s.modelCalls.length).Content ∧
        actionMarker <:+: (replies s.modelCalls.length).Content ∧
        actionInputMarker <:+: (replies s.modelCalls.length).Content) →
      (loopBody handle replies debugMode s).1.dispatched = s.dispatched ++
        [((regexAction_FindStringSubmatch (replies s.modelCalls.length).Content).getD 1 [],
          (regexActionInput_FindStringSubmatch (replies s.modelCalls.length).Content).getD 1 [])]
      ∧ (loopBody handle replies debugMode s).1.toolRuns = s.toolRuns ++
        (handle (s.modelCalls.length + 1)
          ((regexAction_FindStringSubmatch (replies s.modelCalls.length).Content).getD 1 [])
          ((regexActionInput_FindStringSubmatch (replies s.modelCalls.length).Content).getD 1 [])
          debugMode).2.toList) ∧
    (¬ (¬ finalAnswerMarker <:+: (replies s.modelCalls.length).Content ∧
        actionMarker <:+: (replies s.modelCalls.length).Content ∧
        actionInputMarker <:+: (replies s.modelCalls.length).Content) →
      (loopBody handle replies debugMode s).1.dispatched = s.dispatched ∧
      (loopBody handle replies debugMode s).1.toolRuns = s.toolRuns) := by
  by_cases hf : finalAnswerMarker <:+: (replies s.modelCalls.length).Content
  · rw [loopBody_of_final handle replies debugMode s hf]
    simp [hf]
  · rw [loopBody_of_not_final handle replies debugMode s hf]
    by_cases hb : actionMarker <:+: (replies s.modelCalls.length).Content ∧
        actionInputMarker <:+: (replies s.modelCalls.length).Content
    · rw [if_pos hb]
      simp [hf, hb.1, hb.2]
    · rw [if_neg hb]
      refine ⟨by simpa [hf] using hb, fun h => absurd ⟨h.2.1, h.2.2⟩ hb, fun _ => ⟨rfl, rfl⟩⟩

/-- C4, witness: a reply with both action markers is dispatched; a reply with the
`Action:` marker alone is not. -/
theorem dispatch_iff_both_markers_witness :
    (loopBody sampleHandler (fun _ => replyOf "Action: ListTool\nAction Input: x") false
        (TurnState.start [])).1.dispatched ≠ (TurnState.start []).dispatched ∧
    ((loopBody sampleHandler (fun _ => replyOf "Action: ListTool") false
        (TurnState.start [])).1.dispatched = (TurnState.start []).dispatched ∧
      (loopBody sampleHandler (fun _ => replyOf "Action: ListTool") false
        (TurnState.start [])).1.toolRuns = (TurnState.start []).toolRuns) :=
  ⟨(dispatch_iff_both_markers sampleHandler
      (fun _ => replyOf "Action: ListTool\nAction Input: x") false (TurnState.start [])).1.mpr
      (by decide),
    (dispatch_iff_both_markers sampleHandler (fun _ => replyOf "Action: ListTool") false
      (TurnState.start [])).2.2 (by decide)⟩

/-- C5: when the reply holds no final answer and holds both action markers, one loop
iteration appends exactly two messages to the conversation and changes nothing before
them: first an assistant message with the raw reply (and its tool call metadata), then a
user message with the reply, a line feed, `Observation: ` and the dispatch result `r`;
the loop count grows by one and the loop goes on. -/
theorem tool_action_appends_two (handle : Handler) (replies : Nat → ChatCompletionMessage)
    (debugMode : Bool) (s : TurnState) (r : GoString)
    (hf : ¬ finalAnswerMarker <:+: (replies s.modelCalls.length).Content)
    (ha : actionMarker <:+: (replies s.modelCalls.length).Content)
    (hi : actionInputMarker <:+: (replies s.modelCalls.length).Content)
    (hr : (handle (s.modelCalls.length + 1)
      ((regexAction_FindStringSubmatch (replies s.modelCalls.length).Content).getD 1 [])
      ((regexActionInput_FindStringSubmatch (replies s.modelCalls.length).Content).getD 1 [])
      debugMode).1 = r) :
    (loopBody handle replies debugMode s).1.store = s.store ++
      [{ Msg := { Role := RoleAssistant, Content := (replies s.modelCalls.length).Content,
                  FunctionCall := (replies s.modelCalls.length).FunctionCall,
                  ToolCalls := (replies s.modelCalls.length).ToolCalls } },
       { Msg := { Role := RoleUser,
                  Content := (replies s.modelCalls.length).Content ++ "\n".toList ++
                    "Observation: ".toList ++ r } }] ∧
    (loopBody handle replies debugMode s).1.loopCount = s.loopCount + 1 ∧
    (loopBody handle replies debugMode s).2 = false := by
  rw [loopBody_of_not_final handle replies debugMode s hf, if_pos ⟨ha, hi⟩, hr]
  simp [ChatMessages.AddAssistant, ChatMessages.AddToolCall, ChatMessages.AddUser,
    ChatMessages.AppendMessage]

/-- C5, witness: a list action whose dispatch result is `done`. -/
theorem tool_action_appends_two_witness :
    (loopBody sampleHandler (fun _ => replyOf "Action: ListTool\nAction Input: x") false
        (TurnState.start (ChatMessages.Clear []))).1.store = ChatMessages.Clear [] ++
      [{ Msg := { Role := RoleAssistant,
                  Content := "Action: ListTool\nAction Input: x".toList } },
       { Msg := { Role := RoleUser,
                  Content := "Action: ListTool\nAction Input: x".toList ++ "\n".toList ++
                    "Observation: ".toList ++ "done".toList } }] :=
  (tool_action_appends_two sampleHandler (fun _ => replyOf "Action: ListTool\nAction Input: x")
    false (TurnState.start (ChatMessages.Clear [])) "done".toList
    (by decide) (by decide) (by decide) rfl).1

/-- C6: the iteration whose reply holds a final answer leaves the conversation store as
it was when the model was called and leaves the loop; in a whole turn whose first final
answer is reply number `k` (counted from 0, within the ceiling), the loop makes `k + 1`
model calls and no more, and the store at the end of the turn is the snapshot that the
last model call was given. -/
theorem final_answer_keeps_store (handle : Handler) (replies : Nat → ChatCompletionMessage)
    (debugMode : Bool) :
    (∀ s : TurnState, finalAnswerMarker <:+: (replies s.modelCalls.length).Content →
      (loopBody handle replies debugMode s).1.store = s.store ∧
      (loopBody handle replies debugMode s).1.modelCalls = s.modelCalls ++ [s.store.GetMessage] ∧
      (loopBody handle replies debugMode s).2 = true) ∧
    (∀ (N : Int) (fuel k : Nat) (store : ChatMessages), k < fuel → (k : Int) + 1 ≤ N →
      (∀ j, j < k → ¬ finalAnswerMarker <:+: (replies j).Content) →
      finalAnswerMarker <:+: (replies k).Content →
      ∃ s, agentLoop handle replies N debugMode fuel store = some s ∧
        s.modelCalls.length = k + 1 ∧
        s.modelCalls.getLast? = some s.store.GetMessage) := by
  refine ⟨fun s h => ?_, fun N fuel k store hfuel hk hno hfin => ?_⟩
  · rw [loopBody_of_final handle replies debugMode s h]
    exact ⟨rfl, rfl, rfl⟩
  · obtain ⟨s0, hs0, _, hm0, hf0⟩ := loopFrom_final handle replies N debugMode k
      fuel (TurnState.start store) hfuel
      (by simp only [TurnState.start]; omega)
      (by intro j hj; simpa [TurnState.start] using hno j hj)
      (by simpa [TurnState.start] using hfin)
    rw [loopBody_of_final handle replies debugMode s0 hf0] at hs0
    simp only [TurnState.start, List.length_nil, Nat.zero_add] at hm0
    by_cases hge : s0.loopCount ≥ N
    · refine ⟨_, by simp only [agentLoop, hs0, if_pos hge]; rfl, ?_, ?_⟩
      · simp [hm0]
      · simp
    · refine ⟨_, by simp only [agentLoop, hs0, if_neg hge]; rfl, ?_, ?_⟩
      · simp [hm0]
      · simp

/-- C6, witness: the second reply holds the final answer, under a ceiling of 5. -/
theorem final_answer_keeps_store_witness :
    ∃ s, agentLoop sampleHandler
        (fun k => if k = 0 then replyOf "Thought: wait" else replyOf "Final Answer: done")
        5 false 5 (ChatMessages.Clear []) = some s ∧
      s.modelCalls.length = 1 + 1 ∧
      s.modelCalls.getLast? = some s.store.GetMessage :=
  (final_answer_keeps_store sampleHandler
    (fun k => if k = 0 then replyOf "Thought: wait" else replyOf "Final Answer: done")
    false).2 5 5 1 (ChatMessages.Clear []) (by decide) (by decide) (by decide) (by decide)

/-- C7: when the reply holds no final answer and lacks the `Action:` marker or the
`Action Input:` marker, one loop iteration appends exactly one message, an assistant
message with the raw reply, makes no dispatcher call and no tool run, and still adds one
to the loop count before going on. -/
theorem no_action_appends_one (handle : Handler) (replies : Nat → ChatCompletionMessage)
    (debugMode : Bool) (s : TurnState)
    (hf : ¬ finalAnswerMarker <:+: (replies s.modelCalls.length).Content)
    (hm : ¬ actionMarker <:+: (replies s.modelCalls.length).Content ∨
      ¬ actionInputMarker <:+: (replies s.modelCalls.length).Content) :
    (loopBody handle replies debugMode s).1.store = s.store ++
      [{ Msg := { Role := RoleAssistant, Content := (replies s.modelCalls.length).Content,
                  FunctionCall := (replies s.modelCalls.length).FunctionCall,
                  ToolCalls := (replies s.modelCalls.length).ToolCalls } }] ∧
    (loopBody handle replies debugMode s).1.dispatched = s.dispatched ∧
    (loopBody handle replies debugMode s).1.toolRuns = s.toolRuns ∧
    (loopBody handle replies debugMode s).1.loopCount = s.loopCount + 1 ∧
    (loopBody handle replies debugMode s).2 = false := by
  have hb : ¬ (actionMarker <:+: (replies s.modelCalls.length).Content ∧
      actionInputMarker <:+: (replies s.modelCalls.length).Content) := by
    rintro ⟨h1, h2⟩
    rcases hm with h | h
    · exact h h1
    · exact h h2
  rw [loopBody_of_not_final handle replies debugMode s hf, if_neg hb]
  simp [ChatMessages.AddAssistant, ChatMessages.AddToolCall]

/-- C7, witness: a reply with an `Action:` line and no `Action Input:` line. -/
theorem no_action_appends_one_witness :
    (loopBody sampleHandler (fun _ => replyOf "Action: ListTool") false
        (TurnState.start (ChatMessages.Clear []))).1.store = ChatMessages.Clear [] ++
      [{ Msg := { Role := RoleAssistant, Content := "Action: ListTool".toList } }] ∧
    (loopBody sampleHandler (fun _ => replyOf "Action: ListTool") false
        (TurnState.start (ChatMessages.Clear []))).1.loopCount = 1 + 1 :=
  ⟨(no_action_appends_one sampleHandler (fun _ => replyOf "Action: ListTool") false
      (TurnState.start (ChatMessages.Clear [])) (by decide) (Or.inr (by decide))).1,
    (no_action_appends_one sampleHandler (fun _ => replyOf "Action: ListTool") false
      (TurnState.start (ChatMessages.Clear [])) (by decide) (Or.inr (by decide))).2.2.2.1⟩

/-- C8: for an action name that is not exactly the name of one of the registered tools
(`CreateTool`, `ListTool`, `DeleteTool`, `HumanTool` for `handleAction`; `KubeTool`,
`serpapi_search`, `RequestsTool` for `handleCheckAction`), and for every argument text,
the dispatcher returns `Unknown tool: ` followed by the name and runs no tool. -/
theorem unknown_tool (envChat : ChatEnv) (envCheck : CheckEnv) (t : Nat)
    (T actionInput : GoString) (debugMode : Bool) :
    (T ∉ [NewCreateTool.Name, NewListTool.Name, NewDeleteTool.Name, NewHumanTool.Name] →
      handleAction envChat t NewCreateTool NewListTool NewDeleteTool NewHumanTool T
        actionInput debugMode = ("Unknown tool: ".toList ++ T, none)) ∧
    (T ∉ [NewKubeTool.Name, NewSerpApiTool.Name, NewRequestsTool.Name] →
      handleCheckAction envCheck t NewKubeTool NewSerpApiTool NewRequestsTool T
        actionInput debugMode = ("Unknown tool: ".toList ++ T, none)) := by
  constructor
  · intro h
    simp only [List.mem_cons, List.mem_singleton, List.not_mem_nil, or_false, not_or] at h
    obtain ⟨h1, h2, h3, h4⟩ := h
    simp [handleAction, h1, h2, h3, h4]
  · intro h
    simp only [List.mem_cons, List.mem_singleton, List.not_mem_nil, or_false, not_or] at h
    obtain ⟨h1, h2, h3⟩ := h
    simp [handleCheckAction, h1, h2, h3]

/-- C8, witness: the names `listtool` (wrong case) and `KubeTool ` (trailing space). -/
theorem unknown_tool_witness :
    handleAction sampleChatEnv 1 NewCreateTool NewListTool NewDeleteTool NewHumanTool
        "listtool".toList "x".toList false = ("Unknown tool: ".toList ++ "listtool".toList, none) ∧
    handleCheckAction sampleCheckEnv 1 NewKubeTool NewSerpApiTool NewRequestsTool
        "KubeTool ".toList "x".toList false
      = ("Unknown tool: ".toList ++ "KubeTool ".toList, none) :=
  ⟨(unknown_tool sampleChatEnv sampleCheckEnv 1 "listtool".toList "x".toList false).1
      (by decide),
    (unknown_tool sampleChatEnv sampleCheckEnv 1 "KubeTool ".toList "x".toList false).2
      (by decide)⟩

/-- C9: for each registered tool name and every argument text whose `json.Unmarshal`
into the parameter struct of that tool fails with cause `c`, the dispatcher returns
`Error: Failed to parse action input: ` followed by `c`, as ordinary text, and runs no
tool. -/
theorem parse_failure (envChat : ChatEnv) (envCheck : CheckEnv) (t : Nat)
    (actionInput c : GoString) (debugMode : Bool) :
    (envChat.unmarshalCreate actionInput = .error c →
      handleAction envChat t NewCreateTool NewListTool NewDeleteTool NewHumanTool
        NewCreateTool.Name actionInput debugMode
        = ("Error: Failed to parse action input: ".toList ++ c, none)) ∧
    (envChat.unmarshalList actionInput = .error c →
      handleAction envChat t NewCreateTool NewListTool NewDeleteTool NewHumanTool
        NewListTool.Name actionInput debugMode
        = ("Error: Failed to parse action input: ".toList ++ c, none)) ∧
    (envChat.unmarshalDelete actionInput = .error c →
      handleAction envChat t NewCreateTool NewListTool NewDeleteTool NewHumanTool
        NewDeleteTool.Name actionInput debugMode
        = ("Error: Failed to parse action input: ".toList ++ c, none)) ∧
    (envChat.unmarshalHuman actionInput = .error c →
      handleAction envChat t NewCreateTool NewListTool NewDeleteTool NewHumanTool
        NewHumanTool.Name actionInput debugMode
        = ("Error: Failed to parse action input: ".toList ++ c, none)) ∧
    (envCheck.unmarshalKube actionInput = .error c →
      handleCheckAction envCheck t NewKubeTool NewSerpApiTool NewRequestsTool
        NewKubeTool.Name actionInput debugMode
        = ("Error: Failed to parse action input: ".toList ++ c, none)) ∧
    (envCheck.unmarshalSearch actionInput = .error c →
      handleCheckAction envCheck t NewKubeTool NewSerpApiTool NewRequestsTool
        NewSerpApiTool.Name actionInput debugMode
        = ("Error: Failed to parse action input: ".toList ++ c, none)) ∧
    (envCheck.unmarshalRequest actionInput = .error c →
      handleCheckAction envCheck t NewKubeTool NewSerpApiTool NewRequestsTool
        NewRequestsTool.Name actionInput debugMode
        = ("Error: Failed to parse action input: ".toList ++ c, none)) := by
  have l1 : ¬ NewListTool.Name = NewCreateTool.Name := by decide
  have d1 : ¬ NewDeleteTool.Name = NewCreateTool.Name := by decide
  have d2 : ¬ NewDeleteTool.Name = NewListTool.Name := by decide
  have h1 : ¬ NewHumanTool.Name = NewCreateTool.Name := by decide
  have h2 : ¬ NewHumanTool.Name = NewListTool.Name := by decide
  have h3 : ¬ NewHumanTool.Name = NewDeleteTool.Name := by decide
  have s1 : ¬ NewSerpApiTool.Name = NewKubeTool.Name := by decide
  have r1 : ¬ NewRequestsTool.Name = NewKubeTool.Name := by decide
  have r2 : ¬ NewRequestsTool.Name = NewSerpApiTool.Name := by decide
  refine ⟨fun h => ?_, fun h => ?_, fun h => ?_, fun h => ?_, fun h => ?_, fun h => ?_,
    fun h => ?_⟩
  · simp only [handleAction, if_true, h]
  · simp only [handleAction, if_neg l1, if_true, h]
  · simp only [handleAction, if_neg d1, if_neg d2, if_true, h]
  · simp only [handleAction, if_neg h1, if_neg h2, if_neg h3, if_true, h]
  · simp only [handleCheckAction, if_true, h]
  · simp only [handleCheckAction, if_neg s1, if_true, h]
  · simp only [handleCheckAction, if_neg r1, if_neg r2, if_true, h]

/-- C9, witness: an environment in which the argument `not json` fails to parse with the
cause `bad`, for the list tool and for the shell command tool. -/
theorem parse_failure_witness :
    handleAction sampleChatEnv 1 NewCreateTool NewListTool NewDeleteTool NewHumanTool
        NewListTool.Name "not json".toList false
      = ("Error: Failed to parse action input: ".toList ++ "bad".toList, none) ∧
    handleCheckAction sampleCheckEnv 1 NewKubeTool NewSerpApiTool NewRequestsTool
        NewKubeTool.Name "not json".toList false
      = ("Error: Failed to parse action input: ".toList ++ "bad".toList, none) :=
  ⟨(parse_failure sampleChatEnv sampleCheckEnv 1 "not json".toList "bad".toList false).2.1 rfl,
    (parse_failure sampleChatEnv sampleCheckEnv 1 "not json".toList "bad".toList
      false).2.2.2.2.1 rfl⟩

/-- C10: whatever the conversation store holds, after `Clear` it holds exactly one
message, of role `system` and with the fixed system prompt as content; clearing twice is
the same as clearing once. -/
theorem clear_resets (cm : ChatMessages) :
    cm.Clear = [{ Msg := { Role := RoleSystem, Content := SystemPrompt } }] ∧
    cm.Clear.length = 1 ∧
    cm.Clear.GetMessage = [{ Role := "system".toList, Content := SystemPrompt }] ∧
    cm.Clear.Clear = cm.Clear :=
  ⟨rfl, rfl, rfl, rfl⟩

/-! ## Lemmas on the store -/

theorem loopBody_store_append (handle : Handler) (replies : Nat → ChatCompletionMessage)
    (debugMode : Bool) (s : TurnState) :
    ∃ tl, (loopBody handle replies debugMode s).1.store = s.store ++ tl := by
  by_cases h : finalAnswerMarker <:+: (replies s.modelCalls.length).Content
  · rw [loopBody_of_final handle replies debugMode s h]
    exact ⟨[], by simp⟩
  · rw [loopBody_of_not_final handle replies debugMode s h]
    split
    · exact ⟨_, by
        simp only [ChatMessages.AddUser, ChatMessages.AppendMessage, ChatMessages.AddAssistant,
          ChatMessages.AddToolCall, List.append_assoc]; rfl⟩
    · exact ⟨_, by simp only [ChatMessages.AddAssistant, ChatMessages.AddToolCall]; rfl⟩

theorem StoreStep_apply_head (s : TurnState) (step : StoreStep)
    (h : s.store.head? = some { Msg := { Role := RoleSystem, Content := SystemPrompt } }) :
    (step.apply s).store.head?
      = some { Msg := { Role := RoleSystem, Content := SystemPrompt } } := by
  have hne : ∃ m tl, s.store = m :: tl := by
    cases hs : s.store with
    | nil => rw [hs] at h; simp at h
    | cons m tl => exact ⟨m, tl, rfl⟩
  obtain ⟨m, tl, hs⟩ := hne
  cases step with
  | clear => rfl
  | append a =>
    cases a <;>
      simpa [StoreStep.apply, StoreAppend.apply, ChatMessages.AddUser, ChatMessages.AddSystem,
        ChatMessages.AddAssistant, ChatMessages.AddToolCall, ChatMessages.AppendMessage, hs]
        using h
  | iteration handle replies debugMode =>
    obtain ⟨tl', htl⟩ := loopBody_store_append handle replies debugMode s
    simp only [StoreStep.apply, htl, hs, List.cons_append, List.head?_cons]
    simpa [hs] using h

/-! ## The claims on the store -/

/-- C11: start from the store that `init` sets up (the empty store, then `Clear`) and
apply any sequence of `Clear`, `AddUser`, `AddSystem`, `AddAssistant` and loop
iterations (with any dispatcher, replies and mode).  The store reached is never empty
and its first message is the system message with the fixed system prompt. -/
theorem store_first_message (s0 : TurnState) (steps : List StoreStep) :
    (steps.foldl StoreStep.apply { s0 with store := ChatMessages.Clear [] }).store ≠ [] ∧
    (steps.foldl StoreStep.apply { s0 with store := ChatMessages.Clear [] }).store.head?
      = some { Msg := { Role := RoleSystem, Content := SystemPrompt } } ∧
    ((steps.foldl StoreStep.apply
        { s0 with store := ChatMessages.Clear [] }).store.GetMessage.head?.map
      fun m => (m.Role, m.Content)) = some ("system".toList, SystemPrompt) := by
  have key : ∀ (steps : List StoreStep) (s : TurnState),
      s.store.head? = some { Msg := { Role := RoleSystem, Content := SystemPrompt } } →
      (steps.foldl StoreStep.apply s).store.head?
        = some { Msg := { Role := RoleSystem, Content := SystemPrompt } } := by
    intro steps
    induction steps with
    | nil => intro s h; exact h
    | cons step rest ih =>
      intro s h
      exact ih (step.apply s) (StoreStep_apply_head s step h)
  have h := key steps { s0 with store := ChatMessages.Clear [] } rfl
  refine ⟨?_, h, ?_⟩
  · intro hnil
    rw [hnil] at h
    simp at h
  · cases hs : (steps.foldl StoreStep.apply { s0 with store := ChatMessages.Clear [] }).store with
    | nil => rw [hs] at h; simp at h
    | cons m tl =>
      rw [hs] at h
      simp only [List.head?_cons, Option.some.injEq] at h
      subst h
      rfl

/-- C12: after any finite sequence of appends on any store, `GetMessage` returns the
messages the store held, in their order, followed by one message per append, in call
order.  `AddUser` and `AddSystem` give a message with their role and the given content;
`AddAssistant` gives a message of role `assistant` (whatever the role of the reply) with
the content, the function call and the tool calls of the reply.  The content is taken
as it is, whatever it holds. -/
theorem appends_in_order (cm : ChatMessages) (ops : List StoreAppend) :
    (ops.foldl StoreAppend.apply cm).GetMessage = cm.GetMessage ++ ops.map fun op =>
      match op with
      | .user msg => { Role := "user".toList, Content := msg }
      | .system msg => { Role := "system".toList, Content := msg }
      | .assistant rsp =>
        { Role := "assistant".toList, Content := rsp.Content,
          FunctionCall := rsp.FunctionCall, ToolCalls := rsp.ToolCalls } := by
  induction ops generalizing cm with
  | nil => simp
  | cons op rest ih =>
    rw [List.foldl_cons, ih]
    cases op <;>
      simp [StoreAppend.apply, ChatMessages.AddUser, ChatMessages.AddSystem,
        ChatMessages.AddAssistant, ChatMessages.AddToolCall, ChatMessages.AppendMessage,
        ChatMessages.GetMessage, RoleUser, RoleSystem, RoleAssistant]

/-! ## Lemmas on `Sprintf` -/

theorem Sprintf_plain_append (pre rest : GoString) (args : List FmtArg) (h : '%' ∉ pre) :
    Sprintf (pre ++ rest) args = (Sprintf rest args).map fun r => pre ++ r := by
  induction pre with
  | nil => simp
  | cons c cs ih =>
    have hc : c ≠ '%' := fun hh => h (by simp [hh])
    have hcs : '%' ∉ cs := fun hh => h (by simp [hh])
    rw [List.cons_append, Sprintf.eq_def]
    simp only [if_neg hc, ih hcs]
    cases Sprintf rest args <;> simp

theorem Sprintf_plain (s : GoString) (h : '%' ∉ s) : Sprintf s [] = some s := by
  have := Sprintf_plain_append s [] [] h
  simpa [Sprintf] using this

theorem Sprintf_verbS (rest : GoString) (a : FmtArg) (args : List FmtArg) :
    Sprintf ('%' :: 's' :: rest) (a :: args)
      = (Sprintf rest args).map fun r => a.verbS ++ r := by
  simp [Sprintf]

set_option maxRecDepth 100000 in
theorem Template_eq :
    Template = templateHead ++ ('%' :: 's' :: (templateMid1 ++ ('%' :: 's' ::
      (templateMid2 ++ ('%' :: 's' :: templateTail))))) := by
  rfl

set_option maxRecDepth 100000 in
theorem template_segments_plain :
    '%' ∉ templateHead ∧ '%' ∉ templateMid1 ∧ '%' ∉ templateMid2 ∧ '%' ∉ templateTail := by
  decide

theorem Sprintf_Template (tools names : List GoString) (query : GoString) :
    Sprintf Template [.strs tools, .strs names, .str query]
      = some (templateHead ++ ("[".toList ++ (" ".toList).intercalate tools ++ "]".toList) ++
          templateMid1 ++ ("[".toList ++ (" ".toList).intercalate names ++ "]".toList) ++
          templateMid2 ++ query ++ templateTail) := by
  obtain ⟨h0, h1, h2, h3⟩ := template_segments_plain
  rw [Template_eq, Sprintf_plain_append _ _ _ h0, Sprintf_verbS, Sprintf_plain_append _ _ _ h1,
    Sprintf_verbS, Sprintf_plain_append _ _ _ h2, Sprintf_verbS, Sprintf_plain _ h3]
  simp [FmtArg.verbS]

/-! ## The claims on the prompt builder -/

/-- C13, as the code behaves.  `Template` is four fixed texts around three `%s` slots.
For every query, `buildPrompt` and `buildCheckPrompt` return the template with the
slots replaced, in order, by: (1) an opening bracket, the tool blocks
`Name: ...\nDescription: ...\nArgsSchema: ...\n` separated by one space, and a closing
bracket; (2) an opening bracket, the tool names separated by one space, and a closing
bracket; (3) the query as it is.  The result depends on the tool descriptors and the
query only. -/
theorem prompt_slots (createTool : CreateTool) (listTool : ListTool) (deleteTool : DeleteTool)
    (humanTool : HumanTool) (kubeTool : KubeTool) (searchTool : SerpApiTool)
    (requestTool : RequestsTool) (query : GoString) :
    Template = templateHead ++ "%s".toList ++ templateMid1 ++ "%s".toList ++ templateMid2 ++
      "%s".toList ++ templateTail ∧
    buildPrompt createTool listTool deleteTool humanTool query
      = some (templateHead ++
          ("[".toList ++ (" ".toList).intercalate
            [toolBlock createTool.Name createTool.Description createTool.ArgsSchema,
             toolBlock listTool.Name listTool.Description listTool.ArgsSchema,
             toolBlock deleteTool.Name deleteTool.Description deleteTool.ArgsSchema,
             toolBlock humanTool.Name humanTool.Description humanTool.ArgsSchema]
            ++ "]".toList) ++
          templateMid1 ++
          ("[".toList ++ (" ".toList).intercalate
            [createTool.Name, listTool.Name, deleteTool.Name, humanTool.Name] ++ "]".toList) ++
          templateMid2 ++ query ++ templateTail) ∧
    buildCheckPrompt kubeTool searchTool requestTool query
      = some (templateHead ++
          ("[".toList ++ (" ".toList).intercalate
            [toolBlock kubeTool.Name kubeTool.Description kubeTool.ArgsSchema,
             toolBlock searchTool.Name searchTool.Description searchTool.ArgsSchema,
             toolBlock requestTool.Name requestTool.Description requestTool.ArgsSchema]
            ++ "]".toList) ++
          templateMid1 ++
          ("[".toList ++ (" ".toList).intercalate
            [kubeTool.Name, searchTool.Name, requestTool.Name] ++ "]".toList) ++
          templateMid2 ++ query ++ templateTail) := by
  refine ⟨?_, ?_, ?_⟩
  · rw [Template_eq]; simp
  · simp only [buildPrompt, Sprintf_Template, toolBlock]
  · simp only [buildCheckPrompt, Sprintf_Template, toolBlock]

/-- C13, counterexample to the claim as written: for the chat tools and the query
`list pods` the prompt is not the template filled with the concatenated blocks, the
names joined by a comma (with or without a space after it) and the query; the slot of
the names holds `[CreateTool ListTool DeleteTool HumanTool]`. -/
theorem prompt_slots_counterexample :
    buildPrompt NewCreateTool NewListTool NewDeleteTool NewHumanTool "list pods".toList
      ≠ some (promptAsSpecified ",".toList
          [toolBlock NewCreateTool.Name NewCreateTool.Description NewCreateTool.ArgsSchema,
           toolBlock NewListTool.Name NewListTool.Description NewListTool.ArgsSchema,
           toolBlock NewDeleteTool.Name NewDeleteTool.Description NewDeleteTool.ArgsSchema,
           toolBlock NewHumanTool.Name NewHumanTool.Description NewHumanTool.ArgsSchema]
          [NewCreateTool.Name, NewListTool.Name, NewDeleteTool.Name, NewHumanTool.Name]
          "list pods".toList) ∧
    buildPrompt NewCreateTool NewListTool NewDeleteTool NewHumanTool "list pods".toList
      ≠ some (promptAsSpecified ", ".toList
          [toolBlock NewCreateTool.Name NewCreateTool.Description NewCreateTool.ArgsSchema,
           toolBlock NewListTool.Name NewListTool.Description NewListTool.ArgsSchema,
           toolBlock NewDeleteTool.Name NewDeleteTool.Description NewDeleteTool.ArgsSchema,
           toolBlock NewHumanTool.Name NewHumanTool.Description NewHumanTool.ArgsSchema]
          [NewCreateTool.Name, NewListTool.Name, NewDeleteTool.Name, NewHumanTool.Name]
          "list pods".toList) ∧
    ("[".toList ++ (" ".toList).intercalate
        [NewCreateTool.Name, NewListTool.Name, NewDeleteTool.Name, NewHumanTool.Name]
        ++ "]".toList) = "[CreateTool ListTool DeleteTool HumanTool]".toList := by
  refine ⟨?_, ?_, by decide⟩
  · simp only [buildPrompt, Sprintf_Template, promptAsSpecified]
    intro h
    have h1 := List.append_cancel_left (by simpa only [List.append_assoc] using Option.some.inj h)
    have h2 := congrArg List.head? h1
    revert h2
    decide
  · simp only [buildPrompt, Sprintf_Template, promptAsSpecified]
    intro h
    have h1 := List.append_cancel_left (by simpa only [List.append_assoc] using Option.some.inj h)
    have h2 := congrArg List.head? h1
    revert h2
    decide

/-! ## The claims on the namespace suffix and the confirmation tool -/

theorem foldPrefix_iff (pattern text : GoString) :
    foldPrefix pattern text = true ↔
      ∃ w post, text = w ++ post ∧ List.Forall₂ (fun p c => matchFold p c = true) pattern w := by
  induction pattern generalizing text with
  | nil =>
    simp only [foldPrefix, true_iff]
    exact ⟨[], text, rfl, List.Forall₂.nil⟩
  | cons p ps ih =>
    cases text with
    | nil =>
      simp only [foldPrefix, Bool.false_eq_true, false_iff]
      rintro ⟨w, post, hw, hf⟩
      cases hf with
      | cons _ _ => simp at hw
    | cons c cs =>
      simp only [foldPrefix, Bool.and_eq_true, ih]
      constructor
      · rintro ⟨hm, w, post, hw, hf⟩
        exact ⟨c :: w, post, by simp [hw], List.Forall₂.cons hm hf⟩
      · rintro ⟨w, post, hw, hf⟩
        cases hf with
        | cons hm hf' =>
          simp only [List.cons_append, List.cons.injEq] at hw
          obtain ⟨rfl, rfl⟩ := hw
          exact ⟨hm, _, post, rfl, hf'⟩

theorem foldMatch_iff (pattern input : GoString) :
    foldMatch pattern input = true ↔
      ∃ pre w post, input = pre ++ w ++ post ∧
        List.Forall₂ (fun p c => matchFold p c = true) pattern w := by
  induction input with
  | nil =>
    simp only [foldMatch, foldPrefix_iff]
    constructor
    · rintro ⟨w, post, hw, hf⟩
      exact ⟨[], w, post, by simpa using hw, hf⟩
    · rintro ⟨pre, w, post, hw, hf⟩
      have h1 : pre = [] := by
        cases pre with
        | nil => rfl
        | cons a l => simp at hw
      subst h1
      exact ⟨w, post, by simpa using hw, hf⟩
  | cons c cs ih =>
    simp only [foldMatch, Bool.or_eq_true, foldPrefix_iff, ih]
    constructor
    · rintro (⟨w, post, hw, hf⟩ | ⟨pre, w, post, hw, hf⟩)
      · exact ⟨[], w, post, by simpa using hw, hf⟩
      · exact ⟨c :: pre, w, post, by simp [hw], hf⟩
    · rintro ⟨pre, w, post, hw, hf⟩
      cases pre with
      | nil => exact Or.inl ⟨w, post, by simpa using hw, hf⟩
      | cons a l =>
        simp only [List.cons_append, List.cons.injEq] at hw
        exact Or.inr ⟨l, w, post, by simpa using hw.2, hf⟩

theorem Sprintf_namespace (input ns : GoString) :
    Sprintf "%s (in namespace %s)".toList [.str input, .str ns]
      = some (input ++ " (in namespace ".toList ++ ns ++ ")".toList) := by
  have e : "%s (in namespace %s)".toList
      = '%' :: 's' :: (" (in namespace ".toList ++ ('%' :: 's' :: ")".toList)) := rfl
  rw [e, Sprintf_verbS, Sprintf_plain_append _ _ _ (by decide), Sprintf_verbS,
    Sprintf_plain _ (by decide)]
  simp [FmtArg.verbS]

/-- C14: for every input line and every namespace flag.  Say that the input holds the
word in some letter case when a piece of it matches `namespace` letter by letter, each
rune being the letter, its capital or another rune of its case folding orbit (the long
s for `s`).  If the flag is not empty and the input does not hold the word, the query
is the input followed by ` (in namespace `, the flag and `)`; if the flag is empty or
the input holds the word, the query is the input unchanged. -/
theorem namespace_suffix (namespace_ input : GoString) :
    ((namespace_ ≠ [] ∧ ¬ ∃ pre w post, input = pre ++ w ++ post ∧
        List.Forall₂ (fun p c => matchFold p c = true) "namespace".toList w) →
      namespacedInput namespace_ input
        = some (input ++ " (in namespace ".toList ++ namespace_ ++ ")".toList)) ∧
    ((namespace_ = [] ∨ ∃ pre w post, input = pre ++ w ++ post ∧
        List.Forall₂ (fun p c => matchFold p c = true) "namespace".toList w) →
      namespacedInput namespace_ input = some input) := by
  have hm := foldMatch_iff "namespace".toList input
  constructor
  · rintro ⟨hne, hno⟩
    have hf : namespaceRegexp_MatchString input = false := by
      cases hh : namespaceRegexp_MatchString input with
      | false => rfl
      | true => exact absurd (hm.mp hh) hno
    unfold namespacedInput
    rw [if_pos (by simp [hne, hf]), Sprintf_namespace]
  · rintro (he | hin)
    · simp [namespacedInput, he]
    · have hf : namespaceRegexp_MatchString input = true := hm.mpr hin
      simp [namespacedInput, hf]

/-- C14, witness: the input `list pods` with the flag `kube-system`, and the input
`list pods in NameSpace x`, which holds the word in mixed case. -/
theorem namespace_suffix_witness :
    namespacedInput "kube-system".toList "list pods".toList
      = some ("list pods".toList ++ " (in namespace ".toList ++ "kube-system".toList
          ++ ")".toList) ∧
    namespacedInput "kube-system".toList "list pods in NameSpace x".toList
      = some "list pods in NameSpace x".toList :=
  ⟨(namespace_suffix "kube-system".toList "list pods".toList).1
      ⟨by decide, fun h =>
        absurd ((foldMatch_iff "namespace".toList "list pods".toList).mpr h) (by decide)⟩,
    (namespace_suffix "kube-system".toList "list pods in NameSpace x".toList).2
      (Or.inr ((foldMatch_iff "namespace".toList "list pods in NameSpace x".toList).mp
        (by decide)))⟩

/-- C15: for every token read by the confirmation tool, `Run` returns the affirmative
sentinel exactly when the token is `y` or `yes`, the negative sentinel exactly when it is
`n` or `no`, and the token after `Human response: ` exactly when it is none of the four
(so for `maybe`, `Yes` and the empty token); hence the three outcomes exclude each
other. -/
theorem human_answers (h : HumanTool) (prompt s : GoString) :
    ((h.Run prompt s).2 = "Human confirmed! Do I need to use a tool? Yes".toList ↔
      (s = "y".toList ∨ s = "yes".toList)) ∧
    ((h.Run prompt s).2 = "Human declined! Do I need to use a tool? No".toList ↔
      (s = "n".toList ∨ s = "no".toList)) ∧
    ((h.Run prompt s).2 = "Human response: ".toList ++ s ↔
      (¬ (s = "y".toList ∨ s = "yes".toList) ∧ ¬ (s = "n".toList ∨ s = "no".toList))) ∧
    (h.Run prompt "maybe".toList).2 = "Human response: maybe".toList ∧
    (h.Run prompt "Yes".toList).2 = "Human response: Yes".toList ∧
    (h.Run prompt []).2 = "Human response: ".toList := by
  have e1 : "Human response: ".toList ++ s
      = 'H' :: 'u' :: 'm' :: 'a' :: 'n' :: ' ' :: 'r' :: ("esponse: ".toList ++ s) := rfl
  have e2 : "Human confirmed! Do I need to use a tool? Yes".toList
      = 'H' :: 'u' :: 'm' :: 'a' :: 'n' :: ' ' :: 'c' ::
        "onfirmed! Do I need to use a tool? Yes".toList := rfl
  have e3 : "Human declined! Do I need to use a tool? No".toList
      = 'H' :: 'u' :: 'm' :: 'a' :: 'n' :: ' ' :: 'd' ::
        "eclined! Do I need to use a tool? No".toList := rfl
  have n12 : ¬ "Human confirmed! Do I need to use a tool? Yes".toList
      = "Human declined! Do I need to use a tool? No".toList := by decide
  have n21 : ¬ "Human declined! Do I need to use a tool? No".toList
      = "Human confirmed! Do I need to use a tool? Yes".toList := by decide
  have n31 : ¬ "Human response: ".toList ++ s
      = "Human confirmed! Do I need to use a tool? Yes".toList := by
    rw [e1, e2]; simp
  have n32 : ¬ "Human response: ".toList ++ s
      = "Human declined! Do I need to use a tool? No".toList := by
    rw [e1, e3]; simp
  have n13 : ¬ "Human confirmed! Do I need to use a tool? Yes".toList
      = "Human response: ".toList ++ s := fun hh => n31 hh.symm
  have n23 : ¬ "Human declined! Do I need to use a tool? No".toList
      = "Human response: ".toList ++ s := fun hh => n32 hh.symm
  have hyn : (s = "y".toList ∨ s = "yes".toList) → ¬ (s = "n".toList ∨ s = "no".toList) := by
    rintro (h1 | h1) <;> subst h1 <;> decide
  have hA : (s = "y".toList ∨ s = "yes".toList) →
      (h.Run prompt s).2 = "Human confirmed! Do I need to use a tool? Yes".toList := by
    intro hy
    show (if _ then _ else _) = _
    rw [if_pos hy]
  have hB : ¬ (s = "y".toList ∨ s = "yes".toList) → (s = "n".toList ∨ s = "no".toList) →
      (h.Run prompt s).2 = "Human declined! Do I need to use a tool? No".toList := by
    intro hy hn
    show (if _ then _ else _) = _
    rw [if_neg hy, if_pos hn]
  have hC : ¬ (s = "y".toList ∨ s = "yes".toList) → ¬ (s = "n".toList ∨ s = "no".toList) →
      (h.Run prompt s).2 = "Human response: ".toList ++ s := by
    intro hy hn
    show (if _ then _ else _) = _
    rw [if_neg hy, if_neg hn]
  refine ⟨?_, ?_, ?_, rfl, rfl, rfl⟩
  · by_cases hy : s = "y".toList ∨ s = "yes".toList
    · rw [hA hy]; exact iff_of_true rfl hy
    · by_cases hn : s = "n".toList ∨ s = "no".toList
      · rw [hB hy hn]; exact iff_of_false n21 hy
      · rw [hC hy hn]; exact iff_of_false n31 hy
  · by_cases hy : s = "y".toList ∨ s = "yes".toList
    · rw [hA hy]; exact iff_of_false n12 (hyn hy)
    · by_cases hn : s = "n".toList ∨ s = "no".toList
      · rw [hB hy hn]; exact iff_of_true rfl hn
      · rw [hC hy hn]; exact iff_of_false n32 hn
  · by_cases hy : s = "y".toList ∨ s = "yes".toList
    · rw [hA hy]; exact iff_of_false n13 (fun hh => hh.1 hy)
    · by_cases hn : s = "n".toList ∨ s = "no".toList
      · rw [hB hy hn]; exact iff_of_false n23 (fun hh => hh.2 hn)
      · rw [hC hy hn]; exact iff_of_true rfl ⟨hy, hn⟩

/-! ## Lemmas on markers inside a reply built from pieces -/

theorem prefix_append_cons (m X y : GoString) (c : Char) (h : m <+: X ++ c :: y) :
    m <+: X ∨ c ∈ m := by
  obtain ⟨t, ht⟩ := h
  rcases List.append_eq_append_iff.mp ht with ⟨a, hX, _⟩ | ⟨b, hm, hb⟩
  · exact Or.inl ⟨a, hX.symm⟩
  · cases b with
    | nil => exact Or.inl ⟨[], by simp [hm]⟩
    | cons d b' =>
      simp only [List.cons_append, List.cons.injEq] at hb
      exact Or.inr (by rw [hm, hb.1]; simp)

theorem afterFirst_skip (m X y : GoString) (c : Char) (hc : c ∉ m) (hm : m ≠ [])
    (hX : ¬ m <:+: X) : afterFirst m (X ++ c :: y) = afterFirst m y := by
  induction X with
  | nil =>
    have hp : ¬ m <+: c :: y := by
      intro hp
      rcases prefix_append_cons m [] y c (by simpa using hp) with h1 | h1
      · exact hm (List.prefix_nil.mp h1)
      · exact hc h1
    simp [afterFirst, hp]
  | cons a X' ih =>
    have hp : ¬ m <+: a :: (X' ++ c :: y) := by
      intro hp
      rcases prefix_append_cons m (a :: X') y c (by simpa using hp) with ⟨t, ht⟩ | h1
      · exact hX ⟨[], t, by simpa using ht⟩
      · exact hc h1
    have hX' : ¬ m <:+: X' := fun h => hX (List.infix_cons_iff.mpr (Or.inr h))
    rw [List.cons_append, afterFirst, if_neg hp]
    exact ih hX'

theorem not_infix_append_cons (m X y : GoString) (c : Char) (hc : c ∉ m) (hm : m ≠ [])
    (hX : ¬ m <:+: X) (hy : ¬ m <:+: y) : ¬ m <:+: X ++ c :: y := by
  rw [← afterFirst_eq_none_iff, afterFirst_skip m X y c hc hm hX, afterFirst_eq_none_iff]
  exact hy

theorem finalAnswerMarker_not_in_action (A : GoString) (hA : ¬ finalAnswerMarker <:+: A) :
    ¬ finalAnswerMarker <:+: "Action: ".toList ++ A := by
  have e : "Action: ".toList = ['A', 'c', 't', 'i', 'o', 'n', ':', ' '] := rfl
  have e2 : finalAnswerMarker
      = 'F' :: ['i', 'n', 'a', 'l', ' ', 'A', 'n', 's', 'w', 'e', 'r', ':'] := rfl
  rw [e]
  intro h
  rw [e2] at h
  simp only [List.cons_append, List.nil_append, List.infix_cons_iff, List.cons_prefix_cons] at h
  rw [← e2] at h
  simp at h
  exact hA h

theorem finalAnswerMarker_not_in_input (I : GoString) (hI : ¬ finalAnswerMarker <:+: I) :
    ¬ finalAnswerMarker <:+: "Action Input: ".toList ++ I := by
  have e : "Action Input: ".toList
      = ['A', 'c', 't', 'i', 'o', 'n', ' ', 'I', 'n', 'p', 'u', 't', ':', ' '] := rfl
  have e2 : finalAnswerMarker
      = 'F' :: ['i', 'n', 'a', 'l', ' ', 'A', 'n', 's', 'w', 'e', 'r', ':'] := rfl
  rw [e]
  intro h
  rw [e2] at h
  simp only [List.cons_append, List.nil_append, List.infix_cons_iff, List.cons_prefix_cons] at h
  rw [← e2] at h
  simp at h
  exact hI h

theorem actionInputMarker_not_in_action (A : GoString) (hA : ¬ actionInputMarker <:+: A) :
    ¬ actionInputMarker <:+: "Action: ".toList ++ A := by
  have e : "Action: ".toList = ['A', 'c', 't', 'i', 'o', 'n', ':', ' '] := rfl
  have e2 : actionInputMarker
      = 'A' :: 'c' :: 't' :: 'i' :: 'o' :: 'n' :: ' ' :: ['I', 'n', 'p', 'u', 't', ':'] := rfl
  rw [e]
  intro h
  rw [e2] at h
  simp only [List.cons_append, List.nil_append, List.infix_cons_iff, List.cons_prefix_cons] at h
  rw [← e2] at h
  simp at h
  exact hA h

theorem takeWhile_line (A y : GoString) (hA : ∀ c ∈ A, isLineBreak c = false) :
    (A ++ '\n' :: y).takeWhile (fun c => !isLineBreak c) = A := by
  rw [List.takeWhile_append_of_pos (by intro c hc; simp [hA c hc])]
  simp [isLineBreak]

theorem takeWhile_line_end (I : GoString) (hI : ∀ c ∈ I, isLineBreak c = false) :
    I.takeWhile (fun c => !isLineBreak c) = I := by
  rw [List.takeWhile_eq_self_iff]
  intro c hc
  simp [hI c hc]

theorem dropWhile_space_head (l : GoString)
    (h : ∀ c, l.head? = some c → isRegexSpace c = false) :
    (' ' :: l).dropWhile isRegexSpace = l := by
  have h1 : isRegexSpace ' ' = true := by decide
  rw [List.dropWhile_cons_of_pos h1]
  cases l with
  | nil => rfl
  | cons a l' =>
    have := h a rfl
    simp [List.dropWhile_cons, this]

theorem action_reply_submatches (A I : GoString) (hA : A ≠ [])
    (hAlb : ∀ c ∈ A, isLineBreak c = false) (hIlb : ∀ c ∈ I, isLineBreak c = false)
    (hAws : ∀ c, A.head? = some c → isRegexSpace c = false)
    (hIws : ∀ c, I.head? = some c → isRegexSpace c = false)
    (hAF : ¬ finalAnswerMarker <:+: A) (hIF : ¬ finalAnswerMarker <:+: I)
    (hAI : ¬ actionInputMarker <:+: A) :
    ¬ finalAnswerMarker <:+: "Action: ".toList ++ A ++ "\nAction Input: ".toList ++ I ∧
    actionMarker <:+: "Action: ".toList ++ A ++ "\nAction Input: ".toList ++ I ∧
    actionInputMarker <:+: "Action: ".toList ++ A ++ "\nAction Input: ".toList ++ I ∧
    (regexAction_FindStringSubmatch
      ("Action: ".toList ++ A ++ "\nAction Input: ".toList ++ I)).getD 1 [] = A ∧
    (regexActionInput_FindStringSubmatch
      ("Action: ".toList ++ A ++ "\nAction Input: ".toList ++ I)).getD 1 [] = I := by
  have e : "Action: ".toList ++ A ++ "\nAction Input: ".toList ++ I
      = ("Action: ".toList ++ A) ++ '\n' :: ("Action Input: ".toList ++ I) := by
    have : "\nAction Input: ".toList = '\n' :: "Action Input: ".toList := rfl
    rw [this]; simp
  have e1 : "Action: ".toList ++ A ++ "\nAction Input: ".toList ++ I
      = [] ++ actionMarker ++ (' ' :: (A ++ '\n' :: ("Action Input: ".toList ++ I))) := by
    rw [e]
    have : "Action: ".toList = actionMarker ++ [' '] := rfl
    rw [this]; simp
  have e2 : "Action Input: ".toList ++ I = [] ++ actionInputMarker ++ (' ' :: I) := by
    have : "Action Input: ".toList = actionInputMarker ++ [' '] := rfl
    rw [this]; simp
  have hnl1 : '\n' ∉ finalAnswerMarker := by decide
  have hnl2 : '\n' ∉ actionInputMarker := by decide
  have haf1 : afterFirst actionMarker
      ("Action: ".toList ++ A ++ "\nAction Input: ".toList ++ I)
      = some (' ' :: (A ++ '\n' :: ("Action Input: ".toList ++ I))) := by
    rw [e1]; exact afterFirst_first _ _ _ (by simp)
  have haf2 : afterFirst actionInputMarker
      ("Action: ".toList ++ A ++ "\nAction Input: ".toList ++ I) = some (' ' :: I) := by
    rw [e, afterFirst_skip _ _ _ _ hnl2 (by decide) (actionInputMarker_not_in_action A hAI), e2]
    exact afterFirst_first _ _ _ (by simp)
  have hAws' : ∀ c, (A ++ '\n' :: ("Action Input: ".toList ++ I)).head? = some c →
      isRegexSpace c = false := by
    intro c hc
    cases A with
    | nil => exact absurd rfl hA
    | cons a A' => exact hAws c (by simpa using hc)
  refine ⟨?_, ?_, ?_, ?_, ?_⟩
  · rw [e]
    exact not_infix_append_cons _ _ _ _ hnl1 (by decide)
      (finalAnswerMarker_not_in_action A hAF) (finalAnswerMarker_not_in_input I hIF)
  · by_contra hn
    rw [(afterFirst_eq_none_iff _ _).mpr hn] at haf1
    cases haf1
  · by_contra hn
    rw [(afterFirst_eq_none_iff _ _).mpr hn] at haf2
    cases haf2
  · simp only [regexAction_FindStringSubmatch, regexLine_FindStringSubmatch, haf1,
      dropWhile_space_head _ hAws', takeWhile_line A _ hAlb]
    rfl
  · simp only [regexActionInput_FindStringSubmatch, regexLine_FindStringSubmatch, haf2,
      dropWhile_space_head _ hIws, takeWhile_line_end I hIlb]
    rfl

/-! ## The claims on the parsing of action replies -/

/-- C16: let `A` be a tool name that is not empty and `I` an argument text, neither with
a line break (line feed or carriage return) nor with a white space rune in front,
neither holding the marker `Final Answer:`, and `A` not holding `Action Input:`.  For
the reply `Action: ` + `A` + line feed + `Action Input: ` + `I` the loop body finds no
final answer, extracts the action name `A` and the action input `I`, and calls the
dispatcher on exactly these two texts; its only tool run is the one the dispatcher
makes.  For the name `ListTool` and the JSON object with resource `pod` and namespace
`default`, which `json.Unmarshal` decodes into these two fields, the dispatcher of the
chat command runs the list tool on `pod` and `default`. -/
theorem action_reply_parsed (handle : Handler) (replies : Nat → ChatCompletionMessage)
    (debugMode : Bool) (s : TurnState) (A I : GoString) (hA : A ≠ [])
    (hAlb : ∀ c ∈ A, isLineBreak c = false) (hIlb : ∀ c ∈ I, isLineBreak c = false)
    (hAws : ∀ c, A.head? = some c → isRegexSpace c = false)
    (hIws : ∀ c, I.head? = some c → isRegexSpace c = false)
    (hAF : ¬ finalAnswerMarker <:+: A) (hIF : ¬ finalAnswerMarker <:+: I)
    (hAI : ¬ actionInputMarker <:+: A)
    (hc : (replies s.modelCalls.length).Content
      = "Action: ".toList ++ A ++ "\nAction Input: ".toList ++ I) :
    regexPattern_FindStringSubmatch (replies s.modelCalls.length).Content = [] ∧
    (regexAction_FindStringSubmatch (replies s.modelCalls.length).Content).getD 1 [] = A ∧
    (regexActionInput_FindStringSubmatch (replies s.modelCalls.length).Content).getD 1 [] = I ∧
    (loopBody handle replies debugMode s).2 = false ∧
    (loopBody handle replies debugMode s).1.dispatched = s.dispatched ++ [(A, I)] ∧
    (loopBody handle replies debugMode s).1.toolRuns
      = s.toolRuns ++ (handle (s.modelCalls.length + 1) A I debugMode).2.toList ∧
    (∀ (env : ChatEnv) (t : Nat) (dbg : Bool),
      env.unmarshalList listPodJson
        = .ok { Resource := "pod".toList, Namespace := "default".toList } →
      (handleAction env t NewCreateTool NewListTool NewDeleteTool NewHumanTool
        "ListTool".toList listPodJson dbg).2 = some (.list "pod".toList "default".toList)) := by
  obtain ⟨h1, h2, h3, h4, h5⟩ := action_reply_submatches A I hA hAlb hIlb hAws hIws hAF hIF hAI
  rw [← hc] at h1 h2 h3 h4 h5
  have hb := loopBody_of_not_final handle replies debugMode s h1
  rw [if_pos ⟨h2, h3⟩, h4, h5] at hb
  refine ⟨ regexPattern_of_not_infix _ h1, h4, h5, ?_, ?_, ?_, ?_⟩
  · rw [hb]
  · rw [hb]
  · rw [hb]
  · intro env t dbg hu
    have l1 : ¬ "ListTool".toList = NewCreateTool.Name := by decide
    have l2 : "ListTool".toList = NewListTool.Name := rfl
    simp only [handleAction, if_neg l1, if_pos l2, hu]
    rcases env.listRun t "pod".toList "default".toList with ⟨r, _ | err⟩ <;> rfl

/-- C16, witness: the reply of the list scenario, dispatched by `handleAction`. -/
theorem action_reply_parsed_witness :
    (loopBody
        (fun t action actionInput dbg => handleAction listPodEnv t NewCreateTool NewListTool
          NewDeleteTool NewHumanTool action actionInput dbg)
        (fun _ => { Role := RoleAssistant,
                    Content := "Action: ".toList ++ "ListTool".toList ++
                      "\nAction Input: ".toList ++ listPodJson })
        false (TurnState.start [])).1.dispatched
      = (TurnState.start []).dispatched ++ [("ListTool".toList, listPodJson)] ∧
    (loopBody
        (fun t action actionInput dbg => handleAction listPodEnv t NewCreateTool NewListTool
          NewDeleteTool NewHumanTool action actionInput dbg)
        (fun _ => { Role := RoleAssistant,
                    Content := "Action: ".toList ++ "ListTool".toList ++
                      "\nAction Input: ".toList ++ listPodJson })
        false (TurnState.start [])).1.toolRuns
      = [.list "pod".toList "default".toList] :=
  have h := action_reply_parsed
    (fun t action actionInput dbg => handleAction listPodEnv t NewCreateTool NewListTool
      NewDeleteTool NewHumanTool action actionInput dbg)
    (fun _ => { Role := RoleAssistant,
                Content := "Action: ".toList ++ "ListTool".toList ++
                  "\nAction Input: ".toList ++ listPodJson })
    false (TurnState.start []) "ListTool".toList listPodJson (by decide) (by decide)
    (by decide) (by intro c hc; cases hc; decide) (by intro c hc; cases hc; decide)
    (by decide) (by decide) (by decide) rfl
  ⟨h.2.2.2.2.1, h.2.2.2.2.2.1⟩

set_option maxRecDepth 20000 in
/-- C17, the code at a failing input: with two spaces after the name on the `Action:`
line the extracted action name is `ListTool  `, the dispatcher of the chat command
answers `Unknown tool: ListTool  ` and runs no tool; white space before the name is
skipped, so the same reply with spaces and a tab before the name runs the list tool. -/
theorem trailing_space_unknown_tool :
    (regexAction_FindStringSubmatch
        ("Action: ListTool  \nAction Input: ".toList ++ listPodJson)).getD 1 []
      = "ListTool  ".toList ∧
    (handleAction listPodEnv 1 NewCreateTool NewListTool NewDeleteTool NewHumanTool
        "ListTool  ".toList listPodJson false)
      = ("Unknown tool: ListTool  ".toList, none) ∧
    (loopBody
        (fun t action actionInput dbg => handleAction listPodEnv t NewCreateTool NewListTool
          NewDeleteTool NewHumanTool action actionInput dbg)
        (fun _ => { Role := RoleAssistant,
                    Content := "Action: ListTool  \nAction Input: ".toList ++ listPodJson })
        false (TurnState.start [])).1.toolRuns = [] ∧
    ((loopBody
        (fun t action actionInput dbg => handleAction listPodEnv t NewCreateTool NewListTool
          NewDeleteTool NewHumanTool action actionInput dbg)
        (fun _ => { Role := RoleAssistant,
                    Content := "Action: ListTool  \nAction Input: ".toList ++ listPodJson })
        false (TurnState.start [])).1.store.getLast?.map fun m => m.Msg.Content)
      = some ("Action: ListTool  \nAction Input: ".toList ++ listPodJson ++
          "\nObservation: Unknown tool: ListTool  ".toList) ∧
    (loopBody
        (fun t action actionInput dbg => handleAction listPodEnv t NewCreateTool NewListTool
          NewDeleteTool NewHumanTool action actionInput dbg)
        (fun _ => { Role := RoleAssistant,
                    Content := "Action:  \tListTool\nAction Input: ".toList ++ listPodJson })
        false (TurnState.start [])).1.toolRuns = [.list "pod".toList "default".toList] := by
  decide

/-- C18, as the code behaves: the markers are searched anywhere in the reply, not only
where a line begins.  The loop body treats the reply as a final answer exactly when
`Final Answer:` occurs somewhere in it, whatever text stands before the marker on its
line; a reply without it is dispatched as a tool action exactly when `Action:` and
`Action Input:` each occur somewhere in it. -/
theorem markers_anywhere (handle : Handler) (replies : Nat → ChatCompletionMessage)
    (debugMode : Bool) (s : TurnState) :
    ((loopBody handle replies debugMode s).2 = true ↔
      ∃ pre rest, (replies s.modelCalls.length).Content = pre ++ finalAnswerMarker ++ rest) ∧
    ((¬ ∃ pre rest, (replies s.modelCalls.length).Content = pre ++ finalAnswerMarker ++ rest) →
      ((loopBody handle replies debugMode s).1.dispatched ≠ s.dispatched ↔
        ((∃ pre rest, (replies s.modelCalls.length).Content = pre ++ actionMarker ++ rest) ∧
          ∃ pre rest,
            (replies s.modelCalls.length).Content = pre ++ actionInputMarker ++ rest))) := by
  have hinf : ∀ m : GoString, (∃ pre rest, (replies s.modelCalls.length).Content
      = pre ++ m ++ rest) ↔ m <:+: (replies s.modelCalls.length).Content := by
    intro m
    constructor
    · rintro ⟨pre, rest, h⟩; exact ⟨pre, rest, h.symm⟩
    · rintro ⟨pre, rest, h⟩; exact ⟨pre, rest, h.symm⟩
  rw [hinf, hinf, hinf]
  by_cases hf : finalAnswerMarker <:+: (replies s.modelCalls.length).Content
  · rw [loopBody_of_final handle replies debugMode s hf]
    exact ⟨iff_of_true rfl hf, fun hn => absurd hf hn⟩
  · rw [loopBody_of_not_final handle replies debugMode s hf]
    refine ⟨iff_of_false (by simp) hf, fun _ => ?_⟩
    by_cases hb : actionMarker <:+: (replies s.modelCalls.length).Content ∧
        actionInputMarker <:+: (replies s.modelCalls.length).Content
    · rw [if_pos hb]
      exact iff_of_true (by simp) hb
    · rw [if_neg hb]
      exact iff_of_false (by simp) hb

/-- C18, witness: a reply whose marker stands in the middle of its only line. -/
theorem markers_anywhere_witness :
    (loopBody sampleHandler (fun _ => replyOf "I think the Final Answer: 42") false
      (TurnState.start [])).2 = true :=
  (markers_anywhere sampleHandler (fun _ => replyOf "I think the Final Answer: 42") false
    (TurnState.start [])).1.mpr ⟨"I think the ".toList, " 42".toList, by decide⟩

/-- C18, counterexample to the claim as written: `Final Answer:` after other text on its
line ends the turn with the answer `42`, and `Action:` and `Action Input:` in the middle
of one line are dispatched. -/
theorem markers_anywhere_counterexample :
    (loopBody sampleHandler (fun _ => replyOf "I think the Final Answer: 42") false
      (TurnState.start [])).2 = true ∧
    (loopBody sampleHandler (fun _ => replyOf "I think the Final Answer: 42") false
      (TurnState.start [])).1.printed = [.cyan "42".toList] ∧
    (loopBody sampleHandler
      (fun _ => replyOf "Next Action: ListTool with Action Input: x") false
      (TurnState.start [])).1.dispatched
      = [("ListTool with Action Input: x".toList, "x".toList)] := by
  decide

/-! ## Lemmas on trimming and splitting -/

theorem dropWhile_of_head (p : Char → Bool) (l : GoString)
    (h : ∀ x, l.head? = some x → p x = false) : l.dropWhile p = l := by
  cases l with
  | nil => rfl
  | cons a l' => simp [List.dropWhile_cons, h a rfl]

theorem trim_core (p : Char → Bool) (L body R : GoString) (hL : ∀ x ∈ L, p x = true)
    (hR : ∀ x ∈ R, p x = true) (hh : ∀ x, body.head? = some x → p x = false)
    (hl : ∀ x, body.getLast? = some x → p x = false) :
    (((L ++ body ++ R).dropWhile p).reverse.dropWhile p).reverse = body := by
  rw [List.append_assoc, List.dropWhile_append_of_pos hL]
  cases hb : body with
  | nil =>
    rw [List.nil_append, List.dropWhile_eq_nil_iff.mpr hR]
    rfl
  | cons b bs =>
    rw [← hb]
    have h1 : (body ++ R).dropWhile p = body ++ R := by
      apply dropWhile_of_head
      intro x hx
      apply hh x
      rw [hb] at hx ⊢
      simpa using hx
    rw [h1, List.reverse_append,
      List.dropWhile_append_of_pos (by intro x hx; exact hR x (List.mem_reverse.mp hx))]
    have h2 : body.reverse.dropWhile p = body.reverse := by
      apply dropWhile_of_head
      intro x hx
      apply hl x
      rw [← hx, List.head?_reverse]
    rw [h2, List.reverse_reverse]

theorem TrimSpace_of_ends (q : GoString) (hh : ∀ x, q.head? = some x → unicodeIsSpace x = false)
    (hl : ∀ x, q.getLast? = some x → unicodeIsSpace x = false) : TrimSpace q = q := by
  have := trim_core unicodeIsSpace [] q [] (by simp) (by simp) hh hl
  simpa [TrimSpace] using this

theorem mem_of_mem_TrimSpace (q : GoString) (c : Char) (h : c ∈ TrimSpace q) : c ∈ q := by
  unfold TrimSpace at h
  have h1 := List.mem_reverse.mp h
  have h2 := (List.dropWhile_suffix _).subset h1
  have h3 := List.mem_reverse.mp h2
  exact (List.dropWhile_suffix _).subset h3

theorem PrintCyan_plain (t : GoString) (h : '%' ∉ t) :
    PrintCyan t = some (Cyan ++ t ++ Reset ++ "\n".toList) := by
  unfold PrintCyan
  apply Sprintf_plain
  intro hm
  simp only [List.mem_append] at hm
  rcases hm with ((hm | hm) | hm) | hm
  · exact absurd hm (by decide)
  · exact h hm
  · exact absurd hm (by decide)
  · exact absurd hm (by decide)

/-! ## The claim on the round trip -/

/-- C19, as the code behaves: let `q` be a text of one line (no line feed).  Outside
debug mode the loop body treats the reply `Final Answer: ` + `q` as a final answer and
hands `trim(q)` to the colour printer; this is `q` itself when `q` neither starts nor
ends with white space.  When `q` holds no `%`, the bytes written are the cyan escape,
`trim(q)`, the reset escape and a line feed. -/
theorem final_answer_round_trip (handle : Handler) (replies : Nat → ChatCompletionMessage)
    (s : TurnState) (q : GoString) (hq : '\n' ∉ q)
    (hc : (replies s.modelCalls.length).Content = "Final Answer: ".toList ++ q) :
    (loopBody handle replies false s).2 = true ∧
    (loopBody handle replies false s).1.printed = s.printed ++ [.cyan (TrimSpace q)] ∧
    (((∀ x, q.head? = some x → unicodeIsSpace x = false) ∧
        ∀ x, q.getLast? = some x → unicodeIsSpace x = false) →
      (loopBody handle replies false s).1.printed = s.printed ++ [.cyan q]) ∧
    ('%' ∉ q → PrintCyan (TrimSpace q)
      = some (Cyan ++ TrimSpace q ++ Reset ++ "\n".toList)) := by
  have e : "Final Answer: ".toList ++ q = [] ++ finalAnswerMarker ++ (' ' :: q) := by
    have : "Final Answer: ".toList = finalAnswerMarker ++ [' '] := rfl
    rw [this]; simp
  have haf : afterFirst finalAnswerMarker (replies s.modelCalls.length).Content
      = some (' ' :: q) := by
    rw [hc, e]; exact afterFirst_first _ _ _ (by simp)
  have hin : finalAnswerMarker <:+: (replies s.modelCalls.length).Content :=
    ⟨[], ' ' :: q, by rw [hc, e]⟩
  have hsp : (' ' :: q).dropWhile isRegexSpace = q.dropWhile isRegexSpace :=
    List.dropWhile_cons_of_pos (by decide)
  have hgroup : ((regexPattern_FindStringSubmatch
      (replies s.modelCalls.length).Content).getD 1 []) = q.dropWhile isRegexSpace := by
    rw [regexPattern_of_afterFirst _ _ haf, hsp,
      takeWhile_dot_of_no_lf _ (no_lf_dropWhile q hq)]
    rfl
  have hp : (loopBody handle replies false s).1.printed = s.printed ++ [.cyan (TrimSpace q)] := by
    rw [loopBody_of_final handle replies false s hin, hgroup, TrimSpace_dropWhile]
    rfl
  refine ⟨by rw [loopBody_of_final handle replies false s hin], hp, ?_, ?_⟩
  · rintro ⟨hh, hl⟩
    rw [hp, TrimSpace_of_ends q hh hl]
  · intro hpc
    exact PrintCyan_plain _ (fun hm => hpc (mem_of_mem_TrimSpace q _ hm))

/-- C19, witness: the query `list pods` comes back as it is. -/
theorem final_answer_round_trip_witness :
    (loopBody sampleHandler (fun _ => replyOf "Final Answer: list pods") false
      (TurnState.start [])).1.printed
      = (TurnState.start []).printed ++ [.cyan "list pods".toList] :=
  (final_answer_round_trip sampleHandler (fun _ => replyOf "Final Answer: list pods")
    (TurnState.start []) "list pods".toList (by decide) rfl).2.2.1
    ⟨by intro x hx; cases hx; decide, by intro x hx; cases hx; decide⟩

/-- C19, counterexample to the claim as written: of a query of two lines only the first
line is printed, and a query with spaces around it is printed without them. -/
theorem final_answer_round_trip_counterexample :
    (loopBody sampleHandler (fun _ => replyOf "Final Answer: line one\nline two") false
      (TurnState.start [])).1.printed = [.cyan "line one".toList] ∧
    (loopBody sampleHandler (fun _ => replyOf "Final Answer:  list pods ") false
      (TurnState.start [])).1.printed = [.cyan "list pods".toList] := by
  decide

theorem Split_nil (sep : Char) : Split [] sep = [[]] := by
  rw [Split.eq_def]

theorem Split_cons_sep (cs : GoString) (sep : Char) :
    Split (sep :: cs) sep = [] :: Split cs sep := by
  rw [Split.eq_def]
  simp

theorem Split_ne_nil (s : GoString) (sep : Char) : Split s sep ≠ [] := by
  cases s with
  | nil => rw [Split_nil]; simp
  | cons c cs =>
    rw [Split.eq_def]
    by_cases h : c = sep
    · simp [h]
    · simp only [h, if_false]
      split <;> simp

theorem Split_cons_other (c : Char) (cs : GoString) (sep : Char) (h : c ≠ sep) :
    ∃ w ws, Split cs sep = w :: ws ∧ Split (c :: cs) sep = (c :: w) :: ws := by
  cases hs : Split cs sep with
  | nil => exact absurd hs (Split_ne_nil cs sep)
  | cons w ws =>
    refine ⟨w, ws, rfl, ?_⟩
    rw [Split.eq_def]
    simp [h, hs]

theorem intercalate_cons_cons (sep x y : GoString) (ys : List GoString) :
    sep.intercalate (x :: y :: ys) = x ++ sep ++ sep.intercalate (y :: ys) := by
  simp [List.intercalate, List.intersperse]

theorem intercalate_Split (s : GoString) (sep : Char) :
    [sep].intercalate (Split s sep) = s := by
  induction s with
  | nil => rw [Split_nil]; simp [List.intercalate]
  | cons c cs ih =>
    by_cases h : c = sep
    · subst h
      rw [Split_cons_sep]
      cases hs : Split cs c with
      | nil => exact absurd hs (Split_ne_nil cs c)
      | cons w ws =>
        rw [intercalate_cons_cons, ← hs, ih]
        simp
    · obtain ⟨w, ws, hs, hc⟩ := Split_cons_other c cs sep h
      rw [hc]
      rw [hs] at ih
      cases ws with
      | nil =>
        simp only [List.intercalate, List.intersperse, List.flatten, List.append_nil] at ih ⊢
        rw [ih]
      | cons y ys =>
        rw [intercalate_cons_cons] at ih ⊢
        simp only [List.cons_append, List.append_assoc] at ih ⊢
        rw [ih]

theorem Split_no_sep (s : GoString) (sep : Char) : ∀ w ∈ Split s sep, sep ∉ w := by
  induction s with
  | nil => rw [Split_nil]; simp
  | cons c cs ih =>
    by_cases h : c = sep
    · subst h
      rw [Split_cons_sep]
      intro w hw
      rcases List.mem_cons.mp hw with rfl | hw'
      · simp
      · exact ih w hw'
    · obtain ⟨w, ws, hs, hc⟩ := Split_cons_other c cs sep h
      rw [hc]
      rw [hs] at ih
      intro v hv
      rcases List.mem_cons.mp hv with rfl | hv'
      · intro hm
        rcases List.mem_cons.mp hm with h1 | h1
        · exact h h1.symm
        · exact ih w (List.mem_cons_self _ _) h1
      · exact ih v (List.mem_cons_of_mem _ hv')

theorem Split_length (s : GoString) (sep : Char) :
    (Split s sep).length = s.count sep + 1 := by
  induction s with
  | nil => rw [Split_nil]; simp
  | cons c cs ih =>
    by_cases h : c = sep
    · subst h
      rw [Split_cons_sep]
      simp [ih]
    · obtain ⟨w, ws, hs, hc⟩ := Split_cons_other c cs sep h
      rw [hc]
      rw [hs] at ih
      simp only [List.length_cons] at ih ⊢
      rw [ih, List.count_cons_of_ne (fun hh => h hh.symm)]

theorem head_dropWhile (p : Char → Bool) (l : GoString) :
    ∀ x, (l.dropWhile p).head? = some x → p x = false := by
  induction l with
  | nil => intro x hx; simp at hx
  | cons a l' ih =>
    intro x hx
    by_cases ha : p a = true
    · rw [List.dropWhile_cons_of_pos ha] at hx
      exact ih x hx
    · rw [List.dropWhile_cons_of_neg ha] at hx
      simp only [List.head?_cons, Option.some.injEq] at hx
      subst hx
      simpa using ha

theorem trim_ends (p : Char → Bool) (l : GoString) :
    (∀ x, (((l.dropWhile p).reverse.dropWhile p).reverse).head? = some x → p x = false) ∧
    (∀ x, (((l.dropWhile p).reverse.dropWhile p).reverse).getLast? = some x → p x = false) := by
  constructor
  · intro x hx
    rw [List.head?_reverse] at hx
    obtain ⟨Z, hZ⟩ := List.dropWhile_suffix (l := (l.dropWhile p).reverse) p
    cases hY : (l.dropWhile p).reverse.dropWhile p with
    | nil => rw [hY] at hx; simp at hx
    | cons y ys =>
      rw [hY] at hx hZ
      have h1 : ((l.dropWhile p).reverse).getLast? = some x := by
        rw [← hZ, List.getLast?_append, hx]
        rfl
      rw [List.getLast?_reverse] at h1
      exact head_dropWhile p l x h1
  · intro x hx
    rw [List.getLast?_reverse] at hx
    exact head_dropWhile p _ x hx

/-! ## The claim on the shell command tool -/

/-- C20, as the code behaves: for every command string, the argv is the cleaned string
`TrimSpace(Trim(c, quote and backtick))` cut at every single space rune.  Joining the
argv with single spaces gives the cleaned string back, no element holds a space, and
there is one element more than there are spaces; elements can be empty and can hold
tabs.  The cleaned string has no white space at either end.  When `c` is a command
`body` that neither starts nor ends with a quote, a backtick or white space, wrapped
on each side in any number of quotes and backticks, the cleaned string is `body`; the
command `kubectl get pods` in backticks gives the argv `kubectl`, `get`, `pods`. -/
theorem kube_argv (k : KubeTool) (c : GoString) :
    [' '].intercalate (k.splitCommands (k.parseCommands c)) = k.parseCommands c ∧
    (∀ w ∈ k.splitCommands (k.parseCommands c), ' ' ∉ w) ∧
    (k.splitCommands (k.parseCommands c)).length = (k.parseCommands c).count ' ' + 1 ∧
    (∀ x, (k.parseCommands c).head? = some x → unicodeIsSpace x = false) ∧
    (∀ x, (k.parseCommands c).getLast? = some x → unicodeIsSpace x = false) ∧
    (∀ L body R : GoString, c = L ++ body ++ R →
      (∀ x ∈ L, x = '\x22' ∨ x = '\x60') → (∀ x ∈ R, x = '\x22' ∨ x = '\x60') →
      (∀ x, body.head? = some x → x ≠ '\x22' ∧ x ≠ '\x60' ∧ unicodeIsSpace x = false) →
      (∀ x, body.getLast? = some x → x ≠ '\x22' ∧ x ≠ '\x60' ∧ unicodeIsSpace x = false) →
      k.parseCommands c = body) ∧
    k.splitCommands (k.parseCommands "\x60kubectl get pods\x60".toList)
      = ["kubectl".toList, "get".toList, "pods".toList] := by
  refine ⟨intercalate_Split _ _, Split_no_sep _ _, Split_length _ _, ?_, ?_, ?_, rfl⟩
  · exact (trim_ends unicodeIsSpace _).1
  · exact (trim_ends unicodeIsSpace _).2
  · intro L body R hc hL hR hh hl
    have hcut : ∀ x : Char, (x = '\x22' ∨ x = '\x60') ↔ ("\"\x60".toList).contains x = true := by
      intro x
      have : "\"\x60".toList = ['\x22', '\x60'] := rfl
      rw [this]
      simp
    have h1 : Trim c "\"\x60".toList = body := by
      rw [hc]
      apply trim_core
      · intro x hx; exact (hcut x).mp (hL x hx)
      · intro x hx; exact (hcut x).mp (hR x hx)
      · intro x hx
        have := hh x hx
        cases hb : ("\"\x60".toList).contains x with
        | false => rfl
        | true =>
          rcases (hcut x).mpr hb with h2 | h2
          · exact absurd h2 this.1
          · exact absurd h2 this.2.1
      · intro x hx
        have := hl x hx
        cases hb : ("\"\x60".toList).contains x with
        | false => rfl
        | true =>
          rcases (hcut x).mpr hb with h2 | h2
          · exact absurd h2 this.1
          · exact absurd h2 this.2.1
    show TrimSpace (Trim c "\"\x60".toList) = body
    rw [h1]
    exact TrimSpace_of_ends body (fun x hx => (hh x hx).2.2) (fun x hx => (hl x hx).2.2)

/-- C20, witness: the command `kubectl get pods` between a backtick and a quote on the
left and a backtick on the right. -/
theorem kube_argv_witness :
    KubeTool.parseCommands NewKubeTool "\x60\"kubectl get pods\x60".toList
      = "kubectl get pods".toList :=
  (kube_argv NewKubeTool "\x60\"kubectl get pods\x60".toList).2.2.2.2.2.1
    "\x60\"".toList "kubectl get pods".toList "\x60".toList (by decide) (by decide) (by decide)
    (by intro x hx; cases hx; decide) (by intro x hx; cases hx; decide)

/-- C20, counterexample to the claim as written: two spaces in a row give an empty
element and a tab does not separate, so `kubectl  get\tpods` does not give the argv
`kubectl`, `get`, `pods`; and quotes that have white space outside them stay in the
argv. -/
theorem kube_argv_counterexample :
    KubeTool.splitCommands NewKubeTool
        (KubeTool.parseCommands NewKubeTool "kubectl  get\tpods".toList)
      = ["kubectl".toList, [], "get\tpods".toList] ∧
    KubeTool.splitCommands NewKubeTool
        (KubeTool.parseCommands NewKubeTool "kubectl  get\tpods".toList)
      ≠ ["kubectl".toList, "get".toList, "pods".toList] ∧
    KubeTool.splitCommands NewKubeTool
        (KubeTool.parseCommands NewKubeTool " \"kubectl get pods\" ".toList)
      = ["\"kubectl".toList, "get".toList, "pods\"".toList] := by
  decide

/-! ## Lemmas on the removal of code fences -/

theorem replaceFrom_fence_cons (c : Char) (cs : GoString) :
    (("\x60\x60\x60".toList <+: c :: cs) ∧
      replaceFrom "\x60\x60\x60".toList [] 0 (c :: cs)
        = replaceFrom "\x60\x60\x60".toList [] 2 cs) ∨
    ((¬ "\x60\x60\x60".toList <+: c :: cs) ∧
      replaceFrom "\x60\x60\x60".toList [] 0 (c :: cs)
        = c :: replaceFrom "\x60\x60\x60".toList [] 0 cs) := by
  by_cases h : "\x60\x60\x60".toList <+: c :: cs
  · left
    refine ⟨h, ?_⟩
    rw [replaceFrom, if_pos h]
    rfl
  · right
    refine ⟨h, ?_⟩
    rw [replaceFrom, if_neg h]

theorem fence_prefix_iff (l : GoString) :
    "\x60\x60\x60".toList <+: l ↔ ∃ t, l = '\x60' :: '\x60' :: '\x60' :: t := by
  have e : "\x60\x60\x60".toList = ['\x60', '\x60', '\x60'] := rfl
  rw [e]
  constructor
  · rintro ⟨t, ht⟩
    exact ⟨t, by simpa using ht.symm⟩
  · rintro ⟨t, ht⟩
    exact ⟨t, by simp [ht]⟩

theorem replaceFrom_fence_head (t : GoString) (x : Char)
    (h : (replaceFrom "\x60\x60\x60".toList [] 0 t).head? = some x) (hx : x = '\x60') :
    t.head? = some '\x60' := by
  cases t with
  | nil => simp [replaceFrom] at h
  | cons c cs =>
    rcases replaceFrom_fence_cons c cs with ⟨hp, _⟩ | ⟨_, he⟩
    · obtain ⟨t', ht'⟩ := (fence_prefix_iff _).mp hp
      rw [ht']
      rfl
    · rw [he] at h
      simp only [List.head?_cons, Option.some.injEq] at h
      rw [List.head?_cons, h, hx]

theorem replaceFrom_fence_two (t rest : GoString)
    (h : replaceFrom "\x60\x60\x60".toList [] 0 t = '\x60' :: '\x60' :: rest) :
    ∃ t', t = '\x60' :: '\x60' :: t' := by
  cases t with
  | nil => simp [replaceFrom] at h
  | cons c cs =>
    rcases replaceFrom_fence_cons c cs with ⟨hp, _⟩ | ⟨_, he⟩
    · obtain ⟨t', ht'⟩ := (fence_prefix_iff _).mp hp
      exact ⟨'\x60' :: t', ht'⟩
    · rw [he] at h
      simp only [List.cons.injEq] at h
      obtain ⟨hc, hrest⟩ := h
      have hh := replaceFrom_fence_head cs '\x60' (by rw [hrest]; rfl) rfl
      cases cs with
      | nil => simp at hh
      | cons d ds =>
        simp only [List.head?_cons, Option.some.injEq] at hh
        exact ⟨ds, by rw [hc, hh]⟩

theorem replaceFrom_fence_free (t : GoString) :
    ∀ skip, ¬ "\x60\x60\x60".toList <:+: replaceFrom "\x60\x60\x60".toList [] skip t := by
  induction t with
  | nil =>
    intro skip h
    have e : replaceFrom "\x60\x60\x60".toList [] skip [] = [] := by
      cases skip <;> rfl
    rw [e] at h
    have := List.infix_nil.mp h
    exact absurd this (by decide)
  | cons c cs ih =>
    intro skip
    cases skip with
    | succ k =>
      have e : replaceFrom "\x60\x60\x60".toList [] (k + 1) (c :: cs)
          = replaceFrom "\x60\x60\x60".toList [] k cs := rfl
      rw [e]
      exact ih k
    | zero =>
      rcases replaceFrom_fence_cons c cs with ⟨_, he⟩ | ⟨hp, he⟩
      · rw [he]
        exact ih 2
      · rw [he]
        intro h
        rcases List.infix_cons_iff.mp h with h1 | h1
        · obtain ⟨r, hr⟩ := (fence_prefix_iff _).mp h1
          simp only [List.cons.injEq] at hr
          obtain ⟨hc, hrest⟩ := hr
          obtain ⟨t', ht'⟩ := replaceFrom_fence_two cs r hrest
          exact hp ((fence_prefix_iff _).mpr ⟨t', by rw [hc, ht']⟩)
        · exact ih 0 h1

theorem TrimSpace_decomp (q : GoString) : ∃ a b, q = a ++ TrimSpace q ++ b := by
  obtain ⟨a, ha⟩ := List.dropWhile_suffix (l := q) unicodeIsSpace
  obtain ⟨z, hz⟩ := List.dropWhile_suffix (l := (q.dropWhile unicodeIsSpace).reverse)
    unicodeIsSpace
  refine ⟨a, z.reverse, ?_⟩
  have h1 : q.dropWhile unicodeIsSpace = TrimSpace q ++ z.reverse := by
    have := congrArg List.reverse hz
    rw [List.reverse_append, List.reverse_reverse] at this
    exact this.symm
  rw [List.append_assoc, ← h1, ha]

theorem not_infix_TrimSpace (m q : GoString) (h : ¬ m <:+: q) : ¬ m <:+: TrimSpace q := by
  rintro ⟨u, v, huv⟩
  obtain ⟨a, b, hq⟩ := TrimSpace_decomp q
  apply h
  refine ⟨a ++ u, v ++ b, ?_⟩
  rw [hq, ← huv]
  simp

/-! ## The claim on the manifest of the create tool -/

theorem CreateTool_Run_manifest (c : CreateTool) (env : CreateEnv) (prompt resource : GoString)
    (debugMode : Bool) :
    (c.Run env prompt resource debugMode).manifest
      = TrimSpace (Replace (Replace
          (env.Chat [{ Role := "system".toList, Content := K8sAssistantPrompt },
                     { Role := "user".toList, Content := prompt }]).Content
          "\x60\x60\x60yaml".toList []) "\x60\x60\x60".toList []) := by
  unfold CreateTool.Run
  simp only []
  repeat' split
  all_goals rfl

theorem CreateTool_Run_posted (c : CreateTool) (env : CreateEnv) (prompt resource : GoString)
    (debugMode : Bool) (url body : GoString)
    (h : (c.Run env prompt resource debugMode).posted = some (url, body)) :
    env.marshalYaml (c.Run env prompt resource debugMode).manifest = .ok body := by
  rw [CreateTool_Run_manifest]
  unfold CreateTool.Run at h
  simp only [] at h
  split at h
  · simp at h
  · rename_i jsonBody hj
    rw [hj]
    have hb : jsonBody = body := by
      repeat' split at h
      all_goals simp only [Option.some.injEq, Prod.mk.injEq] at h
      all_goals exact h.2
    rw [hb]

/-- C21: whatever text the model returns to the create tool, the manifest of
`CreateTool.Run` is that text after the removal of every `yaml` fence, then of every
remaining fence, then trimming; the sequence of three backticks occurs nowhere in it,
also when a removal brings backticks together; and the body given to `utils.PostHTTP`,
when the call is reached, is the JSON encoding of this manifest. -/
theorem manifest_no_fence (c : CreateTool) (env : CreateEnv) (prompt resource : GoString)
    (debugMode : Bool) :
    (c.Run env prompt resource debugMode).manifest
      = TrimSpace (Replace (Replace
          (env.Chat [{ Role := "system".toList, Content := K8sAssistantPrompt },
                     { Role := "user".toList, Content := prompt }]).Content
          "\x60\x60\x60yaml".toList []) "\x60\x60\x60".toList []) ∧
    ¬ "\x60\x60\x60".toList <:+: (c.Run env prompt resource debugMode).manifest ∧
    (∀ url body, (c.Run env prompt resource debugMode).posted = some (url, body) →
      env.marshalYaml (c.Run env prompt resource debugMode).manifest = .ok body) := by
  refine ⟨CreateTool_Run_manifest c env prompt resource debugMode, ?_,
    fun url body h => CreateTool_Run_posted c env prompt resource debugMode url body h⟩
  rw [CreateTool_Run_manifest]
  apply not_infix_TrimSpace
  exact replaceFrom_fence_free _ 0

/-- C21, witness: two backticks, a `yaml` fence and one more backtick; the removal of the
`yaml` fence leaves three backticks in a row, which the second removal takes away. -/
theorem manifest_no_fence_witness :
    (CreateTool.Run NewCreateTool (sampleCreateEnv "\x60\x60\x60\x60\x60yaml\x60\nkind: Pod")
        "a pod".toList "pod".toList false).manifest = "kind: Pod".toList ∧
    ¬ "\x60\x60\x60".toList <:+:
      (CreateTool.Run NewCreateTool (sampleCreateEnv "\x60\x60\x60\x60\x60yaml\x60\nkind: Pod")
        "a pod".toList "pod".toList false).manifest ∧
    (sampleCreateEnv "\x60\x60\x60\x60\x60yaml\x60\nkind: Pod").marshalYaml
      (CreateTool.Run NewCreateTool (sampleCreateEnv "\x60\x60\x60\x60\x60yaml\x60\nkind: Pod")
        "a pod".toList "pod".toList false).manifest
      = .ok "\x7b\"yaml\":\"kind: Pod\"\x7d".toList :=
  ⟨by decide,
    (manifest_no_fence NewCreateTool (sampleCreateEnv "\x60\x60\x60\x60\x60yaml\x60\nkind: Pod")
      "a pod".toList "pod".toList false).2.1,
    (manifest_no_fence NewCreateTool (sampleCreateEnv "\x60\x60\x60\x60\x60yaml\x60\nkind: Pod")
      "a pod".toList "pod".toList false).2.2
      "http://localhost:8000/api/v1/resources/pod".toList
      "\x7b\"yaml\":\"kind: Pod\"\x7d".toList (by decide)⟩

/-! ## The claim on the range of the argv -/

/-- C22: for every command string the split of the cleaned command is a list with a
first element, so `Run` finds its element 0 (the program) and its slice from index 1
(the arguments) and goes on to the process call: it never fails on the index.  When the
cleaned command is empty, as for the empty string and for strings made of quotes,
backticks and spaces around nothing, the program is the empty string and there are no
arguments. -/
theorem kube_argv_in_range (k : KubeTool)
    (exec : GoString → List GoString → GoString × Option GoString) (c : GoString) :
    k.splitCommands (k.parseCommands c) ≠ [] ∧
    (∃ prog args, k.splitCommands (k.parseCommands c) = prog :: args ∧
      k.Run exec c = some
        (match exec prog args with
          | (_, some err) => ([], some err)
          | (output, none) => ("The result of the command execution: ".toList ++ output, none))) ∧
    k.Run exec c ≠ none ∧
    (k.parseCommands c = [] → k.splitCommands (k.parseCommands c) = [[]]) ∧
    k.splitCommands (k.parseCommands []) = [[]] ∧
    k.splitCommands (k.parseCommands "\"\"".toList) = [[]] ∧
    k.splitCommands (k.parseCommands "\x60 \x60".toList) = [[]] ∧
    k.splitCommands (k.parseCommands "   ".toList) = [[]] := by
  have hne : k.splitCommands (k.parseCommands c) ≠ [] := Split_ne_nil _ _
  have hrun : ∃ prog args, k.splitCommands (k.parseCommands c) = prog :: args ∧
      k.Run exec c = some
        (match exec prog args with
          | (_, some err) => ([], some err)
          | (output, none) =>
            ("The result of the command execution: ".toList ++ output, none)) := by
    cases hs : k.splitCommands (k.parseCommands c) with
    | nil => exact absurd hs hne
    | cons prog args =>
      refine ⟨prog, args, rfl, ?_⟩
      unfold KubeTool.Run
      simp only [hs]
      rcases exec prog args with ⟨output, _ | err⟩ <;> rfl
  refine ⟨hne, hrun, ?_, ?_, rfl, rfl, rfl, rfl⟩
  · obtain ⟨prog, args, _, hr⟩ := hrun
    rw [hr]
    simp
  · intro he
    rw [he]
    rfl

/-- C22, witness: a command made of two quotes around a space is empty after cleaning. -/
theorem kube_argv_in_range_witness :
    KubeTool.splitCommands NewKubeTool (KubeTool.parseCommands NewKubeTool "\" \"".toList)
      = [[]] :=
  (kube_argv_in_range NewKubeTool (fun _ _ => ([], none)) "\" \"".toList).2.2.2.1 (by decide)
